import Mathlib

set_option maxHeartbeats 2000000
set_option maxRecDepth 4000

/-
Shallow embedding of the ShoppingAssistant web server
(src/web-interface/server_app.py, with src/web-interface/config.py supplying
the two API keys).  Python dicts keyed by strings are modelled as association
lists with insertion-order semantics: dset replaces a binding in place or
appends a new one at the end (dict assignment), ddel removes the binding
(del), dlookup finds the binding ("in" / subscript).  Python's time.time()
stamps are modelled by a single Nat supplied by the environment (the clock is
frozen during one handler run).  Network calls (the Gemini completion
endpoint, the Serper endpoint, the browser extension on the socket) are
oracles supplied by an Env record; everything else is translated directly
from the source.
-/

-- ===========================================================================
-- Association lists standing in for Python dicts
-- ===========================================================================

def dlookup {α : Type} (k : String) : List (String × α) → Option α
  | [] => none
  | (k', v) :: rest => if k' = k then some v else dlookup k rest

def dset {α : Type} (k : String) (v : α) : List (String × α) → List (String × α)
  | [] => [(k, v)]
  | (k', v') :: rest => if k' = k then (k, v) :: rest else (k', v') :: dset k v rest

def ddel {α : Type} (k : String) : List (String × α) → List (String × α)
  | [] => []
  | (k', v') :: rest => if k' = k then rest else (k', v') :: ddel k rest

def dkeys {α : Type} (d : List (String × α)) : List String := d.map Prod.fst

-- ===========================================================================
-- Python string helpers: str.strip() and str.split(sep), executable over the
-- underlying character list (ASCII whitespace approximates Python's strip)
-- ===========================================================================

def splitChars (sep : Char) : List Char → List (List Char)
  | [] => [[]]
  | c :: rest =>
    match splitChars sep rest with
    | [] => [[]]
    | g :: gs => if c = sep then [] :: g :: gs else (c :: g) :: gs

def trimChars (l : List Char) : List Char :=
  ((l.dropWhile Char.isWhitespace).reverse.dropWhile Char.isWhitespace).reverse

def pyStrip (s : String) : String := ⟨trimChars s.data⟩

def pySplit (sep : Char) (s : String) : List String :=
  (splitChars sep s.data).map (fun l => ⟨l⟩)

def strConcat : List String → String
  | [] => ""
  | s :: rest => s ++ strConcat rest

-- ===========================================================================
-- Data model (ConnectionManager state, server_app.py lines 54-172)
-- ===========================================================================

inductive ToolResult where
  | ok (data : String)
  | err (msg : String)
deriving Repr, DecidableEq

/-- Python reports success as "'error' not in result". -/
def ToolResult.isOk : ToolResult → Bool
  | .ok _ => true
  | .err _ => false

structure ToolCall where
  name : String
  args : List (String × String)
deriving Repr, DecidableEq

/-- tool_args.get(key, '') on the args dict. -/
def argOf (c : ToolCall) (k : String) : String := (dlookup k c.args).getD ""

inductive MsgPart where
  | functionCall (call : ToolCall)
  | functionResponse (name : String) (response : ToolResult)
deriving Repr, DecidableEq

structure ChatMessage where
  role : String
  content : String
  parts : Option (List MsgPart)
  timestamp : Nat
deriving Repr, DecidableEq

structure ToolProgress where
  tool : String
  current : Nat
  total : Nat
  url : Option String
deriving Repr, DecidableEq

structure Conversation where
  messages : List ChatMessage
  processing : Bool
  current_response : String
  progress : Option ToolProgress
  last_activity : Nat
deriving Repr, DecidableEq

structure ClientInfo where
  session_id : String
  connected_at : Nat
deriving Repr, DecidableEq

structure ExtensionInfo where
  tab_id : Option String
  connected_at : Nat
deriving Repr, DecidableEq

structure ConnectionManager where
  web_clients : List (String × ClientInfo)
  extensions : List (String × ExtensionInfo)
  conversations : List (String × Conversation)
deriving Repr, DecidableEq

/-- The dict built by ConnectionManager.get_conversation when the session id is
absent (lines 107-114); ConnectionManager.clear_conversation installs the same
shape (lines 163-170). -/
def emptyConversation (now : Nat) : Conversation :=
  { messages := [], processing := false, current_response := "",
    progress := none, last_activity := now }

/-- ConnectionManager.get_conversation (lines 105-115): create on first
reference, then return the session's conversation. -/
def get_conversation (m : ConnectionManager) (now : Nat) (sid : String) :
    ConnectionManager × Conversation :=
  match dlookup sid m.conversations with
  | some c => (m, c)
  | none =>
    let c := emptyConversation now
    ({ m with conversations := dset sid c m.conversations }, c)

/-- Write a conversation value back (Python mutates the dict in place). -/
def setConv (m : ConnectionManager) (sid : String) (c : Conversation) :
    ConnectionManager :=
  { m with conversations := dset sid c m.conversations }

/-- ConnectionManager.add_message (lines 117-125). -/
def add_message (m : ConnectionManager) (now : Nat) (sid role content : String)
    (parts : Option (List MsgPart)) : ConnectionManager :=
  let (m1, c) := get_conversation m now sid
  setConv m1 sid
    { c with
      messages := c.messages ++
        [{ role := role, content := content, parts := parts, timestamp := now }],
      last_activity := now }

/-- ConnectionManager.append_stream_chunk (lines 127-134): the sentinel chunk
'__CLEAR__' resets the buffer, every other chunk is concatenated. -/
def append_stream_chunk (m : ConnectionManager) (now : Nat) (sid chunk : String) :
    ConnectionManager :=
  let (m1, c) := get_conversation m now sid
  setConv m1 sid
    { c with
      current_response :=
        if chunk = "__CLEAR__" then "" else c.current_response ++ chunk,
      last_activity := now }

/-- ConnectionManager.finalize_response (lines 136-143): move a non-empty
buffer into an assistant message, then clear busy and progress. -/
def finalize_response (m : ConnectionManager) (now : Nat) (sid : String) :
    ConnectionManager :=
  let (m1, c) := get_conversation m now sid
  let c1 :=
    if c.current_response ≠ "" then
      { c with
        messages := c.messages ++
          [{ role := "assistant", content := c.current_response, parts := none,
             timestamp := now }],
        last_activity := now,
        current_response := "" }
    else c
  setConv m1 sid { c1 with processing := false, progress := none }

/-- ConnectionManager.update_progress (lines 145-154). -/
def update_progress (m : ConnectionManager) (now : Nat) (sid tool : String)
    (current total : Nat) (url : Option String) : ConnectionManager :=
  let (m1, c) := get_conversation m now sid
  setConv m1 sid
    { c with
      progress := some { tool := tool, current := current, total := total, url := url },
      last_activity := now }

/-- ConnectionManager.clear_conversation (lines 161-170): unconditionally
replace the session state with a fresh empty one (no busy check). -/
def clear_conversation (m : ConnectionManager) (now : Nat) (sid : String) :
    ConnectionManager :=
  match dlookup sid m.conversations with
  | none => m
  | some _ => setConv m sid (emptyConversation now)

/-- ConnectionManager.has_extension (lines 100-103). -/
def has_extension (m : ConnectionManager) : Bool := !m.extensions.isEmpty

/-- ConnectionManager.get_active_extension (lines 93-98): first key of the
extensions dict. -/
def get_active_extension (m : ConnectionManager) : Option String :=
  match m.extensions with
  | [] => none
  | (sid, _) :: _ => some sid

/-- ConnectionManager.add_web_client (lines 64-74).  Note: the conversation
dict built here in the source lacks the current_response / progress /
last_activity keys; we model them with the empty defaults (the send path
itself always creates sessions through get_conversation, which has all keys).
-/
def add_web_client (m : ConnectionManager) (now : Nat) (sid session_id : String) :
    ConnectionManager :=
  let m1 := { m with
    web_clients := dset sid { session_id := session_id, connected_at := now } m.web_clients }
  match dlookup session_id m1.conversations with
  | some _ => m1
  | none => { m1 with conversations := dset session_id (emptyConversation now) m1.conversations }

/-- ConnectionManager.remove_web_client (lines 76-79). -/
def remove_web_client (m : ConnectionManager) (sid : String) : ConnectionManager :=
  { m with web_clients := ddel sid m.web_clients }

/-- ConnectionManager.add_extension (lines 81-86). -/
def add_extension (m : ConnectionManager) (now : Nat) (sid : String)
    (tab_id : Option String) : ConnectionManager :=
  { m with extensions := dset sid { tab_id := tab_id, connected_at := now } m.extensions }

/-- ConnectionManager.remove_extension (lines 88-91). -/
def remove_extension (m : ConnectionManager) (sid : String) : ConnectionManager :=
  { m with extensions := ddel sid m.extensions }

-- ===========================================================================
-- config.py: the two credentials
-- ===========================================================================

structure Config where
  GEMINI_API_KEY : Option String
  SERPER_API_KEY : Option String
deriving Repr, DecidableEq

-- ===========================================================================
-- execute_serper_search (lines 340-378)
-- ===========================================================================

structure OrganicResult where
  title : Option String
  link : Option String
  snippet : Option String
deriving Repr, DecidableEq

/-- The parsed JSON body of one upstream Serper response; a missing organic
key is the empty list (both are falsy in the source's truthiness test). -/
structure SerperData where
  organic : List OrganicResult
deriving Repr, DecidableEq

/-- Outcome of one requests.post to the Serper endpoint: either a parsed
response or an exception (caught per query in the source). -/
inductive SerperOutcome where
  | raised (e : String)
  | response (data : SerperData)
deriving Repr, DecidableEq

/-- One entry of the source's results list: query + result + success flag, or
query + error + failure flag. -/
inductive SerperItem where
  | ok (query : String) (result : SerperData)
  | failed (query : String) (e : String)
deriving Repr, DecidableEq

/-- The per-query fetch loop body (lines 349-360). -/
def serperFetch (upstream : String → SerperOutcome) (q : String) : SerperItem :=
  match upstream q with
  | .raised e => .failed q e
  | .response d => .ok q d

/-- queries = [q.strip() for q in query.split(';') if q.strip()] (line 346). -/
def splitQueries (query : String) : List String :=
  ((pySplit ';' query).map pyStrip).filter (fun q => q ≠ "")

/-- "─" * 30 (line 366). -/
def hRule : String := strConcat (List.replicate 30 "─")

/-- One numbered organic entry (lines 374-376). -/
def orgLine (i : Nat) (org : OrganicResult) : String :=
  toString (i + 1) ++ ". " ++ org.title.getD "N/A" ++ "\n" ++
  "   URL: " ++ org.link.getD "N/A" ++ "\n" ++
  "   " ++ org.snippet.getD "" ++ "\n\n"

/-- The organic entries actually rendered: the first 4 (line 373). -/
def shownEntries (orgs : List OrganicResult) : List OrganicResult := orgs.take 4

/-- enumerate(result['organic'][:4]) rendering (lines 373-376). -/
def entriesBlock (orgs : List OrganicResult) : String :=
  strConcat ((shownEntries orgs).enum.map (fun p => orgLine p.1 p.2))

/-- The report text appended for one results entry (lines 365-376). -/
def sectionFor (item : SerperItem) : String :=
  match item with
  | .failed q e =>
      "\n🔎 Query: \"" ++ q ++ "\"\n" ++ hRule ++ "\n" ++ "Error: " ++ e ++ "\n"
  | .ok q d =>
      "\n🔎 Query: \"" ++ q ++ "\"\n" ++ hRule ++ "\n" ++
      (if d.organic.isEmpty then "" else entriesBlock d.organic)

/-- execute_serper_search (lines 340-378): split the query on semicolons, one
upstream call per fragment, then fold the report string. -/
def execute_serper_search (cfg : Config) (upstream : String → SerperOutcome)
    (query : String) : ToolResult :=
  match cfg.SERPER_API_KEY with
  | none => .err "Serper API key not configured"
  | some _ =>
    let results := (splitQueries query).map (serperFetch upstream)
    .ok (results.foldl (fun acc item => acc ++ sectionFor item)
          "=== SERPER SEARCH RESULTS ===\n")

-- ===========================================================================
-- Socket events emitted towards the observer (web client)
-- ===========================================================================

inductive Event where
  | errorEvt (msg : String)
  | message_added (role content : String)
  | stream_start
  | stream_chunk (chunk : String)
  | stream_end
  | tool_call (name : String)
  | tool_executing (name : String)
  | tool_result (name : String) (success : Bool)
  | tool_progress (name : String) (current total : Nat) (url : Option String)
  | conversation_cleared
deriving Repr, DecidableEq

-- ===========================================================================
-- call_gemini_api (lines 273-338), modelled against an oracle stream
-- ===========================================================================

/-- One SSE part of a completion stream: a text chunk or a structured
functionCall proposal. -/
inductive StreamPart where
  | textPart (s : String)
  | callPart (c : ToolCall)
deriving Repr, DecidableEq

/-- Outcome of the i-th requests.post to the completion endpoint: an
exception before any stream data was consumed would be raised [] e; raised
partsBefore e models an exception after partsBefore were already streamed
(their callbacks fired); failure e is the caught RequestException path that
returns an error dict; success parts is a complete stream. -/
inductive GeminiOutcome where
  | raised (partsBefore : List StreamPart) (e : String)
  | failure (e : String)
  | success (parts : List StreamPart)

/-- The dict call_gemini_api returns: either an error key, or text plus
toolCalls. -/
structure GeminiResp where
  error : Option String
  text : String
  toolCalls : List ToolCall
deriving Repr, DecidableEq

inductive CallOutcome where
  | raised (e : String)
  | returned (r : GeminiResp)
deriving Repr, DecidableEq

/-- Driver-emitted events during a delegated turn (the ai_* socket messages,
lines 725-846), already filtered to the current correlation id. -/
inductive DriverEvent where
  | chunk (s : String)
  | toolCallEvt (name : String)
  | toolExecutingEvt (name : String)
  | toolResultEvt (name : String) (success : Bool)
  | toolProgressEvt (name : String) (current total : Nat) (url : Option String)
  | aiComplete
  | aiError (e : String)
deriving Repr, DecidableEq

/-- The environment: oracles for everything outside the server process.
gemini i is the outcome of the i-th completion call of the turn; toolExec i
abstracts what execute_tool_via_extension returns in round i (the correlator
wait itself is modelled separately below); serper answers one upstream search
per query; driverEvents is the stream a delegated turn receives. -/
structure Env where
  now : Nat
  gemini : Nat → GeminiOutcome
  toolExec : Nat → ToolResult
  serper : String → SerperOutcome
  driverEvents : List DriverEvent

/-- The stream_callback of handle_send_message (lines 540-545) applied to each
streamed part in order, accumulating full_text and tool_calls exactly as
call_gemini_api does (lines 310-334). -/
def processParts (m : ConnectionManager) (now : Nat) (sid : String) :
    List StreamPart → ConnectionManager × List Event × String × List ToolCall
  | [] => (m, [], "", [])
  | .textPart s :: rest =>
    let m1 := append_stream_chunk m now sid s
    let (m2, evs, t, cs) := processParts m1 now sid rest
    (m2, .stream_chunk s :: evs, s ++ t, cs)
  | .callPart c :: rest =>
    let (m2, evs, t, cs) := processParts m now sid rest
    (m2, .tool_call c.name :: evs, t, c :: cs)

/-- call_gemini_api (lines 273-338) with the handle_send_message
stream_callback attached: checks the credential, then replays the oracle
stream. -/
def callGemini (cfg : Config) (env : Env) (idx : Nat) (m : ConnectionManager)
    (sid : String) : ConnectionManager × List Event × CallOutcome :=
  match cfg.GEMINI_API_KEY with
  | none =>
    (m, [], .returned { error := some "Gemini API key not configured on server",
                        text := "", toolCalls := [] })
  | some _ =>
    match env.gemini idx with
    | .raised partsBefore e =>
      let p := processParts m env.now sid partsBefore
      (p.1, p.2.1, .raised e)
    | .failure e =>
      (m, [], .returned { error := some e, text := "", toolCalls := [] })
    | .success parts =>
      let p := processParts m env.now sid parts
      (p.1, p.2.1, .returned { error := none, text := p.2.2.1, toolCalls := p.2.2.2 })

-- ===========================================================================
-- Driver-delegated turn (route_message_via_extension, lines 684-723, with the
-- ai_* relay handlers, lines 725-846, folded in sequentially)
-- ===========================================================================

/-- Replay the driver's event stream for the current correlation id while
route_message_via_extension polls: each ai_* handler finds the id pending and
mirrors the event into the conversation plus the observer event stream.  The
outcome is none when the stream ran dry (the 300s poll then times out), some
none on ai_response_complete, some (some e) on ai_response_error. -/
def runDriverEvents (m : ConnectionManager) (now : Nat) (sid : String) :
    List DriverEvent → ConnectionManager × List Event × Option (Option String)
  | [] => (m, [], none)
  | ev :: rest =>
    match ev with
    | .chunk s =>
      let m1 := append_stream_chunk m now sid s
      let (m2, evs, out) := runDriverEvents m1 now sid rest
      (m2, .stream_chunk s :: evs, out)
    | .toolCallEvt name =>
      let m1 := update_progress m now sid name 0 0 none
      let (m2, evs, out) := runDriverEvents m1 now sid rest
      (m2, .tool_call name :: evs, out)
    | .toolExecutingEvt name =>
      let (m2, evs, out) := runDriverEvents m now sid rest
      (m2, .tool_executing name :: evs, out)
    | .toolResultEvt name success =>
      let (m2, evs, out) := runDriverEvents m now sid rest
      (m2, .tool_result name success :: evs, out)
    | .toolProgressEvt name current total url =>
      let m1 := update_progress m now sid name current total url
      let (m2, evs, out) := runDriverEvents m1 now sid rest
      (m2, .tool_progress name current total url :: evs, out)
    | .aiComplete =>
      (finalize_response m now sid, [], some none)
    | .aiError e =>
      (m, [.errorEvt e], some (some e))

/-- route_message_via_extension (lines 684-723): the whole turn is one
correlation; the returned Option String is the error key of the result dict
(none = success, "AI request timeout" after the 300s poll, "No extension
connected" when no driver is routable). -/
def route_message_via_extension (env : Env) (m : ConnectionManager)
    (sid : String) : ConnectionManager × List Event × Option String :=
  if has_extension m then
    let r := runDriverEvents m env.now sid env.driverEvents
    match r.2.2 with
    | some none => (r.1, r.2.1, none)
    | some (some e) => (r.1, r.2.1, some e)
    | none => (r.1, r.2.1, some "AI request timeout")
  else (m, [], some "No extension connected")

-- ===========================================================================
-- Server-driven tool loop (handle_send_message lines 547-606)
-- ===========================================================================

/-- The tool execution step of one loop round (lines 572-580): serper runs on
the server, anything else goes to the extension when present. -/
def roundResult (cfg : Config) (env : Env) (hasExt : Bool) (c : ToolCall)
    (callIdx : Nat) : ToolResult :=
  if c.name = "serper_search" then
    execute_serper_search cfg env.serper (argOf c "query")
  else if hasExt then
    env.toolExec callIdx
  else
    .err ("Tool " ++ c.name ++ " requires browser extension, but none connected")

/-- The statement after the loop (lines 598-600): save the final response text
as an assistant message when non-empty. -/
def afterLoop (env : Env) (sid : String) (m : ConnectionManager)
    (resp : GeminiResp) : ConnectionManager :=
  if resp.text ≠ "" then add_message m env.now sid "assistant" resp.text none
  else m

/-- The first half of one loop round (lines 568-588): set progress, execute
the tool (its routing reads has_extension on the post-progress manager, as the
source does at line 576), and append the functionCall / functionResponse
message pair. roundExec is the tool result, roundState the manager
afterwards. -/
def roundExec (cfg : Config) (env : Env) (sid : String) (m : ConnectionManager)
    (c : ToolCall) (callIdx : Nat) : ToolResult :=
  roundResult cfg env (has_extension (update_progress m env.now sid c.name 0 0 none))
    c callIdx

def roundState (cfg : Config) (env : Env) (sid : String) (m : ConnectionManager)
    (c : ToolCall) (callIdx : Nat) : ConnectionManager :=
  add_message
    (add_message (update_progress m env.now sid c.name 0 0 none)
      env.now sid "assistant" "" (some [.functionCall c]))
    env.now sid "user" ""
    (some [.functionResponse c.name (roundExec cfg env sid m c callIdx)])

/-- The while loop of handle_send_message (lines 559-596).  fuel is
max_loops - loop_count (5 at entry); callIdx counts completion calls (the
initial call was 0).  Returns the manager, the emitted events, and some e when
the re-invoked completion call raised (propagating to the except handler). -/
def serverLoop (cfg : Config) (env : Env) (sid : String) :
    Nat → Nat → ConnectionManager → GeminiResp →
    ConnectionManager × List Event × Option String
  | fuel, callIdx, m, resp =>
    match resp.toolCalls with
    | [] => (afterLoop env sid m resp, [], none)
    | c :: _ =>
      match fuel with
      | 0 => (afterLoop env sid m resp, [], none)
      | fuel' + 1 =>
        let result := roundExec cfg env sid m c callIdx
        let g := callGemini cfg env callIdx (roundState cfg env sid m c callIdx) sid
        match g.2.2 with
        | .raised e =>
          (g.1, .tool_executing c.name :: .tool_result c.name result.isOk :: g.2.1,
           some e)
        | .returned resp' =>
          match resp'.error with
          | some e =>
            (afterLoop env sid g.1 resp',
             .tool_executing c.name :: .tool_result c.name result.isOk ::
               g.2.1 ++ [.errorEvt e], none)
          | none =>
            let r := serverLoop cfg env sid fuel' (callIdx + 1) g.1 resp'
            (r.1, .tool_executing c.name :: .tool_result c.name result.isOk ::
               g.2.1 ++ r.2.1, r.2.2)

/-- conv['processing'] = False on the aliased dict (the finally blocks and the
early-error exits). -/
def clearProcessing (m : ConnectionManager) (now : Nat) (sid : String) :
    ConnectionManager :=
  let (m1, c) := get_conversation m now sid
  setConv m1 sid { c with processing := false }

/-- The payload of a send_message socket event; a missing or empty session id
is falsy in the source's test. -/
structure MessageData where
  session_id : Option String
  text : String
deriving Repr, DecidableEq

def truthySid : Option String → Option String
  | none => none
  | some s => if s = "" then none else some s

/-- handle_send_message (lines 489-606), the full turn orchestration: validate
input, reject busy sessions, append the user message, then either hand the
turn to the driver (no completion credential) or run the server-driven
completion/tool loop; the finally clause clears busy and emits stream_end on
every accepted path. -/
def handle_send_message (cfg : Config) (env : Env) (m : ConnectionManager)
    (data : MessageData) : ConnectionManager × List Event :=
  let text := pyStrip data.text
  match truthySid data.session_id with
  | none => (m, [])
  | some sid =>
    if text = "" then (m, [])
    else
      let gc := get_conversation m env.now sid
      let conv := gc.2
      if conv.processing then (gc.1, [.errorEvt "Already processing a message"])
      else
        let m2 := setConv gc.1 sid { conv with processing := true }
        let m3 := add_message m2 env.now sid "user" text none
        let evs0 : List Event := [.message_added "user" text, .stream_start]
        if cfg.GEMINI_API_KEY = none then
          -- use_extension_ai: route the whole turn through the driver
          if ¬ has_extension m3 then
            (clearProcessing m3 env.now sid,
             evs0 ++
               [.errorEvt "No extension connected. Please open the browser extension on your worker PC.",
                .stream_end])
          else
            let r := route_message_via_extension env m3 sid
            let errEvs := match r.2.2 with
              | some e => [Event.errorEvt e]
              | none => []
            (clearProcessing r.1 env.now sid, evs0 ++ r.2.1 ++ errEvs ++ [.stream_end])
        else
          -- server-side Gemini loop
          let g := callGemini cfg env 0 m3 sid
          match g.2.2 with
          | .raised e =>
            (clearProcessing g.1 env.now sid,
             evs0 ++ g.2.1 ++ [.errorEvt e, .stream_end])
          | .returned resp =>
            match resp.error with
            | some e =>
              -- return inside try: the early exit and then the finally again
              (clearProcessing (clearProcessing g.1 env.now sid) env.now sid,
               evs0 ++ g.2.1 ++ [.errorEvt e, .stream_end, .stream_end])
            | none =>
              let r := serverLoop cfg env sid 5 1 g.1 resp
              match r.2.2 with
              | some e =>
                (clearProcessing r.1 env.now sid,
                 evs0 ++ g.2.1 ++ r.2.1 ++ [.errorEvt e, .stream_end])
              | none =>
                (clearProcessing r.1 env.now sid,
                 evs0 ++ g.2.1 ++ r.2.1 ++ [.stream_end])

-- ===========================================================================
-- handle_clear (lines 608-614)
-- ===========================================================================

structure ClearData where
  session_id : Option String
deriving Repr, DecidableEq

/-- handle_clear: no busy check; any truthy session id resets the conversation
and acknowledges. -/
def handle_clear (m : ConnectionManager) (now : Nat) (data : ClearData) :
    ConnectionManager × List Event :=
  match truthySid data.session_id with
  | none => (m, [])
  | some sid => (clear_conversation m now sid, [.conversation_cleared])

-- ===========================================================================
-- Tool correlator: execute_tool_via_extension (lines 620-658) and
-- handle_tool_result (lines 660-669)
-- ===========================================================================

/-- One entry of the module-level pending_tool_requests dict. -/
structure ToolSlot where
  session_id : String
  result : Option ToolResult
  completed : Bool
deriving Repr, DecidableEq

/-- handle_tool_result: store the result and mark completed when the id is
still pending; otherwise do nothing. -/
def handle_tool_result (pending : List (String × ToolSlot))
    (request_id : String) (result : ToolResult) : List (String × ToolSlot) :=
  match dlookup request_id pending with
  | some slot =>
    dset request_id { slot with result := some result, completed := true } pending
  | none => pending

/-- The tool_result events the extension delivers between two successive polls
of the wait loop, applied through handle_tool_result. -/
def applyArrivals (evs : List (String × ToolResult))
    (pending : List (String × ToolSlot)) : List (String × ToolSlot) :=
  evs.foldl (fun p e => handle_tool_result p e.1 e.2) pending

/-- The polling wait of execute_tool_via_extension (lines 643-658): check the
completed flag, return and retire the slot on completion, otherwise sleep
(during which arrivals land) and poll again; when the fuel (the 120s deadline
divided by the 0.5s sleep) runs out, retire the slot and return the timeout
error. -/
def waitForToolResult (arrivals : Nat → List (String × ToolResult))
    (rid : String) :
    Nat → List (String × ToolSlot) →
    Option ToolResult × List (String × ToolSlot)
  | 0, pending => (some (.err "Tool execution timeout"), ddel rid pending)
  | fuel + 1, pending =>
    match dlookup rid pending with
    | some slot =>
      if slot.completed then (slot.result, ddel rid pending)
      else waitForToolResult arrivals rid fuel (applyArrivals (arrivals fuel) pending)
    | none => waitForToolResult arrivals rid fuel (applyArrivals (arrivals fuel) pending)

/-- execute_tool_via_extension (lines 620-658): refuse without a driver
(no correlation created), otherwise install the pending slot and poll for up
to 240 half-second rounds (the 120 second deadline). -/
def execute_tool_via_extension (hasExt : Bool) (rid : String)
    (arrivals : Nat → List (String × ToolResult)) (sid : String)
    (pending : List (String × ToolSlot)) :
    Option ToolResult × List (String × ToolSlot) :=
  if hasExt then
    waitForToolResult arrivals rid 240
      (dset rid { session_id := sid, result := none, completed := false } pending)
  else (some (.err "No extension connected"), pending)

-- ===========================================================================
-- handle_disconnect (lines 389-395) over the whole module state
-- ===========================================================================

/-- One entry of the module-level pending_ai_requests dict; the result is the
route_message_via_extension result dict (none until completion, then either
success or an error string). -/
structure AiSlot where
  session_id : String
  web_client_sid : String
  result : Option (Option String)
  completed : Bool
deriving Repr, DecidableEq

/-- The module-level mutable state of server_app.py: the manager plus the two
pending-correlation dicts. -/
structure ServerState where
  manager : ConnectionManager
  pending_tool_requests : List (String × ToolSlot)
  pending_ai_requests : List (String × AiSlot)
deriving Repr, DecidableEq

/-- handle_disconnect: remove the connection from both registries.  The
pending correlation dicts are not consulted. -/
def handle_disconnect (st : ServerState) (sid : String) : ServerState :=
  { st with
    manager := remove_extension (remove_web_client st.manager sid) sid }

-- ===========================================================================
-- Spec-side characterizations and basic lemmas
-- ===========================================================================

theorem dlookup_dset_self {α : Type} (k : String) (v : α)
    (d : List (String × α)) : dlookup k (dset k v d) = some v := by
  induction d with
  | nil => simp [dset, dlookup]
  | cons p rest ih =>
    obtain ⟨k', v'⟩ := p
    by_cases h : k' = k <;> simp [dset, dlookup, h, ih]

theorem dlookup_dset_ne {α : Type} {k1 k2 : String} (h : k1 ≠ k2) (v : α)
    (d : List (String × α)) : dlookup k1 (dset k2 v d) = dlookup k1 d := by
  induction d with
  | nil => simp [dset, dlookup, Ne.symm h]
  | cons p rest ih =>
    obtain ⟨k', v'⟩ := p
    by_cases hk : k' = k2
    · subst hk
      simp [dset, dlookup, Ne.symm h]
    · simp [dset, dlookup, hk, ih]

theorem dlookup_ddel_ne {α : Type} {k1 k2 : String} (h : k1 ≠ k2)
    (d : List (String × α)) : dlookup k1 (ddel k2 d) = dlookup k1 d := by
  induction d with
  | nil => simp [ddel]
  | cons p rest ih =>
    obtain ⟨k', v'⟩ := p
    by_cases hk : k' = k2
    · subst hk
      simp [ddel, dlookup, Ne.symm h]
    · simp [ddel, dlookup, hk, ih]

theorem dlookup_eq_none_of_not_mem_keys {α : Type} {k : String}
    {d : List (String × α)} (h : k ∉ dkeys d) : dlookup k d = none := by
  induction d with
  | nil => simp [dlookup]
  | cons p rest ih =>
    obtain ⟨k', v'⟩ := p
    simp [dkeys] at h
    simp [dlookup, h.1, ih (by simp [dkeys, h.2]), Ne.symm h.1]

theorem dlookup_ddel_self {α : Type} (k : String) {d : List (String × α)}
    (h : (dkeys d).Nodup) : dlookup k (ddel k d) = none := by
  induction d with
  | nil => simp [ddel, dlookup]
  | cons p rest ih =>
    obtain ⟨k', v'⟩ := p
    have hpair := List.nodup_cons.mp (show (k' :: dkeys rest).Nodup by
      simpa [dkeys] using h)
    by_cases hk : k' = k
    · subst hk
      simp only [ddel, if_pos rfl]
      exact dlookup_eq_none_of_not_mem_keys hpair.1
    · simp [ddel, dlookup, hk, ih hpair.2]

theorem dkeys_cons {α : Type} (k' : String) (v' : α) (rest : List (String × α)) :
    dkeys ((k', v') :: rest) = k' :: dkeys rest := rfl

theorem mem_dkeys_dset {α : Type} (x k : String) (v : α) :
    ∀ (d : List (String × α)), x ∈ dkeys (dset k v d) ↔ (x ∈ dkeys d ∨ x = k) := by
  intro d
  induction d with
  | nil =>
    constructor
    · intro hx
      right
      simpa [dset, dkeys] using hx
    · intro hx
      rcases hx with hx | hx
      · simp [dkeys] at hx
      · simp [dset, dkeys, hx]
  | cons p rest ih =>
    obtain ⟨k', v'⟩ := p
    by_cases hk : k' = k
    · subst hk
      rw [show dset k' v ((k', v') :: rest) = (k', v) :: rest from by simp [dset]]
      rw [dkeys_cons, dkeys_cons]
      constructor
      · intro hx
        exact Or.inl hx
      · intro hx
        rcases hx with hx | hx
        · exact hx
        · subst hx; exact List.mem_cons.mpr (Or.inl rfl)
    · rw [show dset k v ((k', v') :: rest) = (k', v') :: dset k v rest from by
        simp [dset, hk]]
      rw [dkeys_cons, dkeys_cons]
      constructor
      · intro hx
        rcases List.mem_cons.mp hx with hx | hx
        · exact Or.inl (List.mem_cons.mpr (Or.inl hx))
        · rcases ih.mp hx with h1 | h1
          · exact Or.inl (List.mem_cons.mpr (Or.inr h1))
          · exact Or.inr h1
      · intro hx
        rcases hx with hx | hx
        · rcases List.mem_cons.mp hx with h1 | h1
          · exact List.mem_cons.mpr (Or.inl h1)
          · exact List.mem_cons.mpr (Or.inr (ih.mpr (Or.inl h1)))
        · exact List.mem_cons.mpr (Or.inr (ih.mpr (Or.inr hx)))

theorem nodup_dkeys_dset {α : Type} (k : String) (v : α) :
    ∀ {d : List (String × α)}, (dkeys d).Nodup → (dkeys (dset k v d)).Nodup := by
  intro d
  induction d with
  | nil => intro _; simp [dset, dkeys]
  | cons p rest ih =>
    obtain ⟨k', v'⟩ := p
    intro h
    have hpair := List.nodup_cons.mp (show (k' :: dkeys rest).Nodup by
      simpa [dkeys] using h)
    by_cases hk : k' = k
    · subst hk
      simpa [dset, dkeys] using h
    · have hmem : k' ∉ dkeys (dset k v rest) := by
        rw [mem_dkeys_dset]
        rintro (hmm | hmm)
        · exact hpair.1 hmm
        · exact hk hmm
      have hcons : dkeys (dset k v ((k', v') :: rest)) = k' :: dkeys (dset k v rest) := by
        simp [dset, dkeys, hk]
      rw [hcons]
      exact List.nodup_cons.mpr ⟨hmem, ih hpair.2⟩

-- String concatenation basics

theorem strConcat_append (a b : List String) :
    strConcat (a ++ b) = strConcat a ++ strConcat b := by
  induction a with
  | nil => simp [strConcat]
  | cons s rest ih => simp [strConcat, ih, String.append_assoc]

theorem foldl_append_str {α : Type} (f : α → String) (l : List α) :
    ∀ acc : String, l.foldl (fun a it => a ++ f it) acc = acc ++ strConcat (l.map f) := by
  induction l with
  | nil => intro acc; simp [strConcat]
  | cons x rest ih =>
    intro acc
    simp [strConcat, ih, String.append_assoc]

-- The buffer fold induced by repeated append_stream_chunk

def chunkFold (b : String) (chunks : List String) : String :=
  chunks.foldl (fun acc c => if c = "__CLEAR__" then "" else acc ++ c) b

def keptStep (acc : List String) (c : String) : List String :=
  if c = "__CLEAR__" then [] else acc ++ [c]

/-- The chunks whose text is still present in the buffer after folding: the
suffix after the last reset. -/
def keptChunks (chunks : List String) : List String :=
  chunks.foldl keptStep []

theorem chunkFold_no_clear {chunks : List String}
    (h : "__CLEAR__" ∉ chunks) (b : String) :
    chunkFold b chunks = b ++ strConcat chunks := by
  induction chunks generalizing b with
  | nil => simp [chunkFold, strConcat]
  | cons c rest ih =>
    have hc : c ≠ "__CLEAR__" := by
      intro hh; exact h (by simp [hh])
    have hr : "__CLEAR__" ∉ rest := by
      intro hh; exact h (by simp [hh])
    have step : chunkFold b (c :: rest) = chunkFold (b ++ c) rest := by
      simp [chunkFold, hc]
    rw [step, ih hr]
    simp [strConcat, String.append_assoc]

theorem chunkFold_keptChunks_gen (chunks : List String) :
    ∀ acc : List String,
      chunkFold (strConcat acc) chunks = strConcat (chunks.foldl keptStep acc) := by
  induction chunks with
  | nil => intro acc; simp [chunkFold]
  | cons c rest ih =>
    intro acc
    by_cases hc : c = "__CLEAR__"
    · subst hc
      have step1 : chunkFold (strConcat acc) ("__CLEAR__" :: rest) = chunkFold "" rest := by
        simp [chunkFold]
      have step2 : ("__CLEAR__" :: rest).foldl keptStep acc = rest.foldl keptStep [] := by
        simp [keptStep]
      rw [step1, step2]
      simpa [strConcat] using ih []
    · have step1 : chunkFold (strConcat acc) (c :: rest) = chunkFold (strConcat acc ++ c) rest := by
        simp [chunkFold, hc]
      have step2 : (c :: rest).foldl keptStep acc = rest.foldl keptStep (acc ++ [c]) := by
        simp [keptStep, hc]
      have step3 : strConcat acc ++ c = strConcat (acc ++ [c]) := by
        simp [strConcat_append, strConcat]
      rw [step1, step2, step3]
      exact ih (acc ++ [c])

theorem chunkFold_keptChunks (chunks : List String) :
    chunkFold "" chunks = strConcat (keptChunks chunks) := by
  have := chunkFold_keptChunks_gen chunks []
  simpa [strConcat, keptChunks] using this

theorem keptChunks_no_clear_gen (chunks : List String) :
    ∀ acc : List String, (∀ x ∈ acc, x ≠ "__CLEAR__") →
      ∀ x ∈ chunks.foldl keptStep acc, x ≠ "__CLEAR__" := by
  induction chunks with
  | nil => intro acc hacc; simpa using hacc
  | cons c rest ih =>
    intro acc hacc
    by_cases hc : c = "__CLEAR__"
    · subst hc
      simp [keptStep]
      exact ih [] (by simp)
    · simp [keptStep, hc]
      refine ih (acc ++ [c]) ?_
      intro x hx
      rcases List.mem_append.mp hx with h1 | h1
      · exact hacc x h1
      · simp at h1; subst h1; exact hc

theorem keptChunks_no_clear (chunks : List String) :
    ∀ x ∈ keptChunks chunks, x ≠ "__CLEAR__" :=
  keptChunks_no_clear_gen chunks [] (by simp)

-- Manager operation lemmas: what each conversation mutation does to the
-- session's entry, and that none of them touches the extensions registry.

theorem get_conversation_of_some {m : ConnectionManager} {now : Nat}
    {sid : String} {conv : Conversation}
    (h : dlookup sid m.conversations = some conv) :
    get_conversation m now sid = (m, conv) := by
  simp [get_conversation, h]

theorem lookup_setConv_self (m : ConnectionManager) (sid : String)
    (c : Conversation) : dlookup sid (setConv m sid c).conversations = some c := by
  simp [setConv, dlookup_dset_self]

theorem add_message_lookup (now : Nat) {m : ConnectionManager} {sid : String}
    {conv : Conversation} (h : dlookup sid m.conversations = some conv)
    (role content : String) (parts : Option (List MsgPart)) :
    dlookup sid (add_message m now sid role content parts).conversations =
      some { conv with
             messages := conv.messages ++
               [{ role := role, content := content, parts := parts, timestamp := now }],
             last_activity := now } := by
  simp [add_message, get_conversation_of_some h, lookup_setConv_self]

theorem append_stream_chunk_lookup (now : Nat) {m : ConnectionManager}
    {sid : String} {conv : Conversation}
    (h : dlookup sid m.conversations = some conv) (chunk : String) :
    dlookup sid (append_stream_chunk m now sid chunk).conversations =
      some { conv with
             current_response :=
               if chunk = "__CLEAR__" then "" else conv.current_response ++ chunk,
             last_activity := now } := by
  simp [append_stream_chunk, get_conversation_of_some h, lookup_setConv_self]

theorem update_progress_lookup (now : Nat) {m : ConnectionManager}
    {sid : String} {conv : Conversation}
    (h : dlookup sid m.conversations = some conv) (tool : String)
    (current total : Nat) (url : Option String) :
    dlookup sid (update_progress m now sid tool current total url).conversations =
      some { conv with
             progress := some { tool := tool, current := current, total := total, url := url },
             last_activity := now } := by
  simp [update_progress, get_conversation_of_some h, lookup_setConv_self]

theorem finalize_response_lookup (now : Nat) {m : ConnectionManager}
    {sid : String} {conv : Conversation}
    (h : dlookup sid m.conversations = some conv) :
    dlookup sid (finalize_response m now sid).conversations =
      some (if conv.current_response ≠ "" then
              { conv with
                messages := conv.messages ++
                  [{ role := "assistant", content := conv.current_response,
                     parts := none, timestamp := now }],
                last_activity := now,
                current_response := "",
                processing := false,
                progress := none }
            else { conv with processing := false, progress := none }) := by
  by_cases hb : conv.current_response = "" <;>
    simp [finalize_response, get_conversation_of_some h, lookup_setConv_self, hb]

theorem clearProcessing_lookup (now : Nat) {m : ConnectionManager}
    {sid : String} {conv : Conversation}
    (h : dlookup sid m.conversations = some conv) :
    dlookup sid (clearProcessing m now sid).conversations =
      some { conv with processing := false } := by
  simp [clearProcessing, get_conversation_of_some h, lookup_setConv_self]

theorem clearProcessing_lookup_any (m : ConnectionManager) (now : Nat)
    (sid : String) :
    ∃ c, dlookup sid (clearProcessing m now sid).conversations = some c ∧
      c.processing = false := by
  cases h : dlookup sid m.conversations with
  | some conv => exact ⟨_, clearProcessing_lookup now h, rfl⟩
  | none =>
    refine ⟨{ emptyConversation now with processing := false }, ?_, rfl⟩
    simp [clearProcessing, get_conversation, h, lookup_setConv_self]

theorem get_conversation_ext (m : ConnectionManager) (now : Nat) (sid : String) :
    ((get_conversation m now sid).1).extensions = m.extensions := by
  cases h : dlookup sid m.conversations <;> simp [get_conversation, h]

theorem add_message_ext (m : ConnectionManager) (now : Nat)
    (sid role content : String) (parts : Option (List MsgPart)) :
    (add_message m now sid role content parts).extensions = m.extensions := by
  cases h : dlookup sid m.conversations <;>
    simp [add_message, get_conversation, setConv, h]

theorem append_stream_chunk_ext (m : ConnectionManager) (now : Nat)
    (sid chunk : String) :
    (append_stream_chunk m now sid chunk).extensions = m.extensions := by
  cases h : dlookup sid m.conversations <;>
    simp [append_stream_chunk, get_conversation, setConv, h]

theorem update_progress_ext (m : ConnectionManager) (now : Nat)
    (sid tool : String) (current total : Nat) (url : Option String) :
    (update_progress m now sid tool current total url).extensions = m.extensions := by
  cases h : dlookup sid m.conversations <;>
    simp [update_progress, get_conversation, setConv, h]

theorem processParts_ext (now : Nat) (sid : String) :
    ∀ (parts : List StreamPart) (m : ConnectionManager),
      ((processParts m now sid parts).1).extensions = m.extensions := by
  intro parts
  induction parts with
  | nil => intro m; simp [processParts]
  | cons p rest ih =>
    intro m
    cases p with
    | textPart s => simp [processParts, ih, append_stream_chunk_ext]
    | callPart c => simp [processParts, ih]

-- Spec-side projections of a completion stream

def partsText : List StreamPart → String
  | [] => ""
  | .textPart s :: rest => s ++ partsText rest
  | .callPart _ :: rest => partsText rest

def partsCalls : List StreamPart → List ToolCall
  | [] => []
  | .textPart _ :: rest => partsCalls rest
  | .callPart c :: rest => c :: partsCalls rest

def partsTexts : List StreamPart → List String
  | [] => []
  | .textPart s :: rest => s :: partsTexts rest
  | .callPart _ :: rest => partsTexts rest

theorem processParts_text_calls (now : Nat) (sid : String) :
    ∀ (parts : List StreamPart) (m : ConnectionManager),
      (processParts m now sid parts).2.2 = (partsText parts, partsCalls parts) := by
  intro parts
  induction parts with
  | nil => intro m; simp [processParts, partsText, partsCalls]
  | cons p rest ih =>
    intro m
    cases p with
    | textPart s =>
      have := ih (append_stream_chunk m now sid s)
      simp [processParts, partsText, partsCalls] at this ⊢
      simp [this]
    | callPart c =>
      have := ih m
      simp [processParts, partsText, partsCalls] at this ⊢
      simp [this]

theorem processParts_lookup (now : Nat) (sid : String) :
    ∀ (parts : List StreamPart) (m : ConnectionManager) (conv : Conversation),
      dlookup sid m.conversations = some conv →
      ∃ la, dlookup sid ((processParts m now sid parts).1).conversations =
        some { conv with
               current_response := chunkFold conv.current_response (partsTexts parts),
               last_activity := la } := by
  intro parts
  induction parts with
  | nil =>
    intro m conv h
    exact ⟨conv.last_activity, by simp [processParts, partsTexts, chunkFold, h]⟩
  | cons p rest ih =>
    intro m conv h
    cases p with
    | textPart s =>
      have h1 := append_stream_chunk_lookup now h s
      obtain ⟨la, hla⟩ := ih (append_stream_chunk m now sid s) _ h1
      refine ⟨la, ?_⟩
      simp [processParts]
      rw [hla]
      simp [partsTexts, chunkFold]
    | callPart c =>
      obtain ⟨la, hla⟩ := ih m conv h
      refine ⟨la, ?_⟩
      simp [processParts]
      rw [hla]
      simp [partsTexts]

-- Spec-side image of call_gemini_api's returned dict (none when the call
-- raises)

def geminiRespOf (cfg : Config) (env : Env) (idx : Nat) : Option GeminiResp :=
  match cfg.GEMINI_API_KEY with
  | none => some { error := some "Gemini API key not configured on server",
                   text := "", toolCalls := [] }
  | some _ =>
    match env.gemini idx with
    | .raised _ _ => none
    | .failure e => some { error := some e, text := "", toolCalls := [] }
    | .success parts =>
      some { error := none, text := partsText parts, toolCalls := partsCalls parts }

-- Spec-side message trace of the tool loop

def afterMsgs (now : Nat) (resp : GeminiResp) : List ChatMessage :=
  if resp.text ≠ "" then
    [{ role := "assistant", content := resp.text, parts := none, timestamp := now }]
  else []

def pairMsgs (now : Nat) (c : ToolCall) (r : ToolResult) : List ChatMessage :=
  [{ role := "assistant", content := "", parts := some [.functionCall c], timestamp := now },
   { role := "user", content := "", parts := some [.functionResponse c.name r], timestamp := now }]

/-- The messages the server-driven loop appends, computed from the oracle
alone: one functionCall/functionResponse pair per round, built from the head
proposal of the round's response, then the final text if any. -/
def loopMsgs (cfg : Config) (env : Env) (hasExt : Bool) :
    Nat → Nat → GeminiResp → List ChatMessage
  | fuel, callIdx, resp =>
    match resp.toolCalls with
    | [] => afterMsgs env.now resp
    | c :: _ =>
      match fuel with
      | 0 => afterMsgs env.now resp
      | fuel' + 1 =>
        pairMsgs env.now c (roundResult cfg env hasExt c callIdx) ++
        match geminiRespOf cfg env callIdx with
        | none => []
        | some resp' =>
          if resp'.error.isSome then afterMsgs env.now resp'
          else loopMsgs cfg env hasExt fuel' (callIdx + 1) resp'

theorem afterLoop_lookup {env : Env} {sid : String} {m : ConnectionManager}
    {conv : Conversation} (h : dlookup sid m.conversations = some conv)
    (resp : GeminiResp) :
    ∃ conv', dlookup sid (afterLoop env sid m resp).conversations = some conv' ∧
      conv'.messages = conv.messages ++ afterMsgs env.now resp ∧
      conv'.processing = conv.processing := by
  by_cases ht : resp.text = ""
  · exact ⟨conv, by simp [afterLoop, afterMsgs, ht, h]⟩
  · refine ⟨{ conv with
        messages := conv.messages ++
          [{ role := "assistant", content := resp.text, parts := none,
             timestamp := env.now }],
        last_activity := env.now }, ?_, ?_, rfl⟩
    · simpa [afterLoop, ht] using add_message_lookup env.now h "assistant" resp.text none
    · simp [afterMsgs, ht]

theorem has_extension_update_progress (m : ConnectionManager) (now : Nat)
    (sid tool : String) (current total : Nat) (url : Option String) :
    has_extension (update_progress m now sid tool current total url) = has_extension m := by
  simp [has_extension, update_progress_ext]

theorem has_extension_add_message (m : ConnectionManager) (now : Nat)
    (sid role content : String) (parts : Option (List MsgPart)) :
    has_extension (add_message m now sid role content parts) = has_extension m := by
  simp [has_extension, add_message_ext]

theorem roundExec_eq (cfg : Config) (env : Env) (sid : String)
    (m : ConnectionManager) (c : ToolCall) (callIdx : Nat) :
    roundExec cfg env sid m c callIdx = roundResult cfg env (has_extension m) c callIdx := by
  unfold roundExec
  rw [has_extension_update_progress]

theorem roundState_ext (cfg : Config) (env : Env) (sid : String)
    (m : ConnectionManager) (c : ToolCall) (callIdx : Nat) :
    (roundState cfg env sid m c callIdx).extensions = m.extensions := by
  simp [roundState, add_message_ext, update_progress_ext]

theorem round_lookup (cfg : Config) (env : Env) (sid : String)
    {m : ConnectionManager} {conv : Conversation} (c : ToolCall) (callIdx : Nat)
    (h : dlookup sid m.conversations = some conv) :
    ∃ conv3,
      dlookup sid (roundState cfg env sid m c callIdx).conversations = some conv3 ∧
      conv3.messages = conv.messages ++
        pairMsgs env.now c (roundResult cfg env (has_extension m) c callIdx) ∧
      conv3.processing = conv.processing ∧
      conv3.progress = some { tool := c.name, current := 0, total := 0, url := none } ∧
      conv3.current_response = conv.current_response := by
  have h1 := update_progress_lookup env.now h c.name 0 0 none
  have h2 := add_message_lookup env.now h1 "assistant" "" (some [MsgPart.functionCall c])
  have h3 := add_message_lookup env.now h2 "user" ""
    (some [MsgPart.functionResponse c.name (roundExec cfg env sid m c callIdx)])
  refine ⟨{ conv with
      messages := (conv.messages ++
        [{ role := "assistant", content := "", parts := some [MsgPart.functionCall c],
           timestamp := env.now }]) ++
        [{ role := "user", content := "",
           parts := some [MsgPart.functionResponse c.name
             (roundExec cfg env sid m c callIdx)],
           timestamp := env.now }],
      progress := some { tool := c.name, current := 0, total := 0, url := none },
      last_activity := env.now }, ?_, ?_, rfl, rfl, rfl⟩
  · exact h3
  · simp [pairMsgs, roundExec_eq]

-- One-step unfolding equations for the recursive loop definitions (stated on
-- literal response records so they hold by rfl and cannot loop in simp)

theorem serverLoop_nil_eq (cfg : Config) (env : Env) (sid : String)
    (fuel callIdx : Nat) (m : ConnectionManager) (err : Option String)
    (txt : String) :
    serverLoop cfg env sid fuel callIdx m { error := err, text := txt, toolCalls := [] } =
      (afterLoop env sid m { error := err, text := txt, toolCalls := [] }, [], none) := by
  cases fuel <;> rfl

theorem serverLoop_zero_eq (cfg : Config) (env : Env) (sid : String)
    (callIdx : Nat) (m : ConnectionManager) (err : Option String)
    (txt : String) (c : ToolCall) (cs : List ToolCall) :
    serverLoop cfg env sid 0 callIdx m { error := err, text := txt, toolCalls := c :: cs } =
      (afterLoop env sid m { error := err, text := txt, toolCalls := c :: cs }, [], none) := rfl

theorem serverLoop_cons_eq (cfg : Config) (env : Env) (sid : String)
    (fuel' callIdx : Nat) (m : ConnectionManager) (err : Option String)
    (txt : String) (c : ToolCall) (cs : List ToolCall) :
    serverLoop cfg env sid (fuel' + 1) callIdx m
        { error := err, text := txt, toolCalls := c :: cs } =
      (let result := roundExec cfg env sid m c callIdx
       let g := callGemini cfg env callIdx (roundState cfg env sid m c callIdx) sid
       match g.2.2 with
       | .raised e =>
         (g.1, .tool_executing c.name :: .tool_result c.name result.isOk :: g.2.1,
          some e)
       | .returned resp' =>
         match resp'.error with
         | some e =>
           (afterLoop env sid g.1 resp',
            .tool_executing c.name :: .tool_result c.name result.isOk ::
              g.2.1 ++ [.errorEvt e], none)
         | none =>
           let r := serverLoop cfg env sid fuel' (callIdx + 1) g.1 resp'
           (r.1, .tool_executing c.name :: .tool_result c.name result.isOk ::
              g.2.1 ++ r.2.1, r.2.2)) := rfl

theorem loopMsgs_nil_eq (cfg : Config) (env : Env) (hx : Bool)
    (fuel callIdx : Nat) (err : Option String) (txt : String) :
    loopMsgs cfg env hx fuel callIdx { error := err, text := txt, toolCalls := [] } =
      afterMsgs env.now { error := err, text := txt, toolCalls := [] } := by
  cases fuel <;> rfl

theorem loopMsgs_zero_eq (cfg : Config) (env : Env) (hx : Bool)
    (callIdx : Nat) (err : Option String) (txt : String) (c : ToolCall)
    (cs : List ToolCall) :
    loopMsgs cfg env hx 0 callIdx { error := err, text := txt, toolCalls := c :: cs } =
      afterMsgs env.now { error := err, text := txt, toolCalls := c :: cs } := rfl

theorem loopMsgs_cons_eq (cfg : Config) (env : Env) (hx : Bool)
    (fuel' callIdx : Nat) (err : Option String) (txt : String) (c : ToolCall)
    (cs : List ToolCall) :
    loopMsgs cfg env hx (fuel' + 1) callIdx
        { error := err, text := txt, toolCalls := c :: cs } =
      pairMsgs env.now c (roundResult cfg env hx c callIdx) ++
      (match geminiRespOf cfg env callIdx with
       | none => []
       | some resp' =>
         if resp'.error.isSome then afterMsgs env.now resp'
         else loopMsgs cfg env hx fuel' (callIdx + 1) resp') := rfl

/-- Refinement of the server-driven loop: the session entry survives, its
busy flag is untouched, and the messages it gains are exactly the spec-side
trace loopMsgs. -/
theorem serverLoop_char (cfg : Config) (env : Env) (sid : String) :
    ∀ (fuel callIdx : Nat) (m : ConnectionManager) (resp : GeminiResp)
      (conv : Conversation), dlookup sid m.conversations = some conv →
      ∃ conv',
        dlookup sid ((serverLoop cfg env sid fuel callIdx m resp).1).conversations
          = some conv' ∧
        conv'.messages = conv.messages ++ loopMsgs cfg env (has_extension m) fuel callIdx resp ∧
        conv'.processing = conv.processing := by
  intro fuel
  induction fuel with
  | zero =>
    intro callIdx m resp conv h
    obtain ⟨err, txt, tcs⟩ := resp
    obtain ⟨conv', h1, h2, h3⟩ := afterLoop_lookup h ⟨err, txt, tcs⟩
    cases tcs with
    | nil =>
      exact ⟨conv', by rw [serverLoop_nil_eq]; exact h1, by rw [loopMsgs_nil_eq]; exact h2, h3⟩
    | cons c cs =>
      exact ⟨conv', by rw [serverLoop_zero_eq]; exact h1, by rw [loopMsgs_zero_eq]; exact h2, h3⟩
  | succ fuel' ih =>
    intro callIdx m resp conv h
    obtain ⟨err, txt, tcs⟩ := resp
    cases tcs with
    | nil =>
      obtain ⟨conv', h1, h2, h3⟩ := afterLoop_lookup h ⟨err, txt, []⟩
      exact ⟨conv', by rw [serverLoop_nil_eq]; exact h1, by rw [loopMsgs_nil_eq]; exact h2, h3⟩
    | cons c cs =>
      obtain ⟨conv3, h3, hmsg3, hproc3, hprog3, hbuf3⟩ := round_lookup cfg env sid c callIdx h
      rw [serverLoop_cons_eq, loopMsgs_cons_eq]
      cases hk : cfg.GEMINI_API_KEY with
      | none =>
        refine ⟨conv3, ?_, ?_, hproc3⟩
        · simp only [callGemini, hk]
          simpa [afterLoop] using h3
        · simp only [geminiRespOf, hk]
          simp [hmsg3, afterMsgs]
      | some key =>
        cases hg : env.gemini callIdx with
        | raised partsB e =>
          obtain ⟨la, hla⟩ := processParts_lookup env.now sid partsB _ _ h3
          refine ⟨{ conv3 with
              current_response := chunkFold conv3.current_response (partsTexts partsB),
              last_activity := la }, ?_, ?_, ?_⟩
          · simp only [callGemini, hk, hg]
            exact hla
          · simp only [geminiRespOf, hk, hg]
            simp [hmsg3]
          · simpa using hproc3
        | failure e =>
          refine ⟨conv3, ?_, ?_, hproc3⟩
          · simp only [callGemini, hk, hg]
            simpa [afterLoop] using h3
          · simp only [geminiRespOf, hk, hg]
            simp [hmsg3, afterMsgs]
        | success parts =>
          have hptc := processParts_text_calls env.now sid parts
            (roundState cfg env sid m c callIdx)
          obtain ⟨la, hla⟩ := processParts_lookup env.now sid parts _ _ h3
          have hxt2 : has_extension
              (processParts (roundState cfg env sid m c callIdx) env.now sid parts).1
              = has_extension m := by
            simp [has_extension, processParts_ext, roundState_ext]
          obtain ⟨conv', hconv', hmsg', hproc'⟩ := ih (callIdx + 1) _
            { error := none, text := partsText parts, toolCalls := partsCalls parts } _ hla
          refine ⟨conv', ?_, ?_, ?_⟩
          · simp only [callGemini, hk, hg]
            simp only [hptc]
            exact hconv'
          · simp only [geminiRespOf, hk, hg]
            rw [hmsg']
            rw [hxt2]
            simp [hmsg3]
          · rw [hproc']
            exact hproc3

-- Message classification for the tool loop rounds

def isFunctionCallMsg (msg : ChatMessage) : Bool :=
  match msg.parts with
  | some ps => ps.any (fun p => match p with | MsgPart.functionCall _ => true | _ => false)
  | none => false

def isFunctionResponseMsg (msg : ChatMessage) : Bool :=
  match msg.parts with
  | some ps => ps.any (fun p => match p with | MsgPart.functionResponse _ _ => true | _ => false)
  | none => false

theorem afterMsgs_counts (now : Nat) (resp : GeminiResp) :
    (afterMsgs now resp).countP (fun x => isFunctionCallMsg x) = 0 ∧
    (afterMsgs now resp).countP (fun x => isFunctionResponseMsg x) = 0 := by
  by_cases ht : resp.text = "" <;>
    simp [afterMsgs, ht, isFunctionCallMsg, isFunctionResponseMsg]

theorem pairMsgs_counts (now : Nat) (c : ToolCall) (r : ToolResult) :
    (pairMsgs now c r).countP (fun x => isFunctionCallMsg x) = 1 ∧
    (pairMsgs now c r).countP (fun x => isFunctionResponseMsg x) = 1 := by
  simp [pairMsgs, isFunctionCallMsg, isFunctionResponseMsg, List.countP_cons]

/-- Round counting: the loop trace holds at most fuel functionCall messages,
and functionCall and functionResponse messages in equal number. -/
theorem loopMsgs_count (cfg : Config) (env : Env) (hx : Bool) :
    ∀ (fuel callIdx : Nat) (resp : GeminiResp),
      (loopMsgs cfg env hx fuel callIdx resp).countP (fun x => isFunctionCallMsg x) ≤ fuel ∧
      (loopMsgs cfg env hx fuel callIdx resp).countP (fun x => isFunctionCallMsg x) =
        (loopMsgs cfg env hx fuel callIdx resp).countP (fun x => isFunctionResponseMsg x) := by
  intro fuel
  induction fuel with
  | zero =>
    intro callIdx resp
    obtain ⟨err, txt, tcs⟩ := resp
    cases tcs with
    | nil =>
      rw [loopMsgs_nil_eq]
      have := afterMsgs_counts env.now ⟨err, txt, []⟩
      omega
    | cons c cs =>
      rw [loopMsgs_zero_eq]
      have := afterMsgs_counts env.now ⟨err, txt, c :: cs⟩
      omega
  | succ fuel' ih =>
    intro callIdx resp
    obtain ⟨err, txt, tcs⟩ := resp
    cases tcs with
    | nil =>
      rw [loopMsgs_nil_eq]
      have := afterMsgs_counts env.now ⟨err, txt, []⟩
      omega
    | cons c cs =>
      rw [loopMsgs_cons_eq]
      rw [List.countP_append, List.countP_append]
      have hp := pairMsgs_counts env.now c (roundResult cfg env hx c callIdx)
      cases hgo : geminiRespOf cfg env callIdx with
      | none => simp [hp.1, hp.2]
      | some resp' =>
        by_cases he : resp'.error.isSome
        · have ha := afterMsgs_counts env.now resp'
          simp [he, hp.1, hp.2, ha.1, ha.2]
        · have hi := ih (callIdx + 1) resp'
          simp only [he, if_false, Bool.false_eq_true]
          omega

/-- The oracle shape in which every completion response succeeds and proposes
at least one tool call. -/
def successWithTool (o : GeminiOutcome) : Prop :=
  ∃ parts, o = .success parts ∧ partsCalls parts ≠ []

theorem loopMsgs_count_full (cfg : Config) (env : Env) (hx : Bool) {key : String}
    (hkey : cfg.GEMINI_API_KEY = some key) :
    ∀ (fuel callIdx : Nat) (resp : GeminiResp), resp.toolCalls ≠ [] →
      (∀ i, i < fuel → successWithTool (env.gemini (callIdx + i))) →
      (loopMsgs cfg env hx fuel callIdx resp).countP (fun x => isFunctionCallMsg x) = fuel := by
  intro fuel
  induction fuel with
  | zero =>
    intro callIdx resp htc _
    obtain ⟨err, txt, tcs⟩ := resp
    cases tcs with
    | nil => simp at htc
    | cons c cs =>
      rw [loopMsgs_zero_eq]
      exact (afterMsgs_counts env.now ⟨err, txt, c :: cs⟩).1
  | succ fuel' ih =>
    intro callIdx resp htc hsucc
    obtain ⟨err, txt, tcs⟩ := resp
    cases tcs with
    | nil => simp at htc
    | cons c cs =>
      obtain ⟨parts, hparts, hpc⟩ := hsucc 0 (Nat.succ_pos fuel')
      rw [loopMsgs_cons_eq, List.countP_append]
      have hgo : geminiRespOf cfg env callIdx =
          some { error := none, text := partsText parts, toolCalls := partsCalls parts } := by
        simp only [geminiRespOf, hkey]
        rw [show env.gemini callIdx = GeminiOutcome.success parts by
          simpa using hparts]
      rw [hgo]
      have hrec := ih (callIdx + 1)
        { error := none, text := partsText parts, toolCalls := partsCalls parts }
        (by simpa using hpc)
        (by
          intro i hi
          have := hsucc (i + 1) (by omega)
          simpa [Nat.add_assoc, Nat.add_comm 1 i] using this)
      simp [(pairMsgs_counts env.now c (roundResult cfg env hx c callIdx)).1, hrec]
      omega

-- No error event is emitted by the loop when every completion call succeeds

def errorFree (evs : List Event) : Prop := ∀ e, Event.errorEvt e ∉ evs

theorem errorFree_nil : errorFree [] := by intro e h; simp at h

theorem errorFree_append {a b : List Event} (ha : errorFree a) (hb : errorFree b) :
    errorFree (a ++ b) := by
  intro e h
  rcases List.mem_append.mp h with h1 | h1
  · exact ha e h1
  · exact hb e h1

theorem errorFree_cons {ev : Event} {a : List Event}
    (hev : ∀ e, ev ≠ Event.errorEvt e) (ha : errorFree a) :
    errorFree (ev :: a) := by
  intro e h
  rcases List.mem_cons.mp h with h1 | h1
  · exact hev e h1.symm
  · exact ha e h1

theorem processParts_no_error (now : Nat) (sid : String) :
    ∀ (parts : List StreamPart) (m : ConnectionManager),
      errorFree (processParts m now sid parts).2.1 := by
  intro parts
  induction parts with
  | nil => intro m; simp [processParts]; exact errorFree_nil
  | cons p rest ih =>
    intro m
    cases p with
    | textPart s =>
      have := ih (append_stream_chunk m now sid s)
      simp only [processParts]
      exact errorFree_cons (by intro e h; cases h) this
    | callPart c =>
      have := ih m
      simp only [processParts]
      exact errorFree_cons (by intro e h; cases h) this

theorem serverLoop_no_error (cfg : Config) (env : Env) (sid : String)
    {key : String} (hkey : cfg.GEMINI_API_KEY = some key) :
    ∀ (fuel callIdx : Nat) (m : ConnectionManager) (resp : GeminiResp),
      (∀ i, ∃ parts, env.gemini (callIdx + i) = .success parts) →
      errorFree (serverLoop cfg env sid fuel callIdx m resp).2.1 := by
  intro fuel
  induction fuel with
  | zero =>
    intro callIdx m resp hsucc
    obtain ⟨err, txt, tcs⟩ := resp
    cases tcs with
    | nil => rw [serverLoop_nil_eq]; exact errorFree_nil
    | cons c cs => rw [serverLoop_zero_eq]; exact errorFree_nil
  | succ fuel' ih =>
    intro callIdx m resp hsucc
    obtain ⟨err, txt, tcs⟩ := resp
    cases tcs with
    | nil => rw [serverLoop_nil_eq]; exact errorFree_nil
    | cons c cs =>
      obtain ⟨parts, hg⟩ := hsucc 0
      rw [Nat.add_zero] at hg
      rw [serverLoop_cons_eq]
      simp only [callGemini, hkey, hg]
      refine errorFree_cons (by intro e h; cases h) ?_
      refine errorFree_cons (by intro e h; cases h) ?_
      refine errorFree_append (processParts_no_error env.now sid parts _) ?_
      exact ih (callIdx + 1) _ _ (by
        intro i
        have := hsucc (i + 1)
        simpa [Nat.add_assoc, Nat.add_comm 1 i] using this)

-- Delegated-turn replay: a pure chunk stream ending in ai_response_complete

theorem runDriverEvents_chunks (now : Nat) (sid : String) :
    ∀ (chunks : List String) (m : ConnectionManager),
      runDriverEvents m now sid (chunks.map DriverEvent.chunk ++ [DriverEvent.aiComplete]) =
        (finalize_response
           (chunks.foldl (fun mm s => append_stream_chunk mm now sid s) m) now sid,
         chunks.map Event.stream_chunk, some none) := by
  intro chunks
  induction chunks with
  | nil => intro m; simp [runDriverEvents]
  | cons s rest ih =>
    intro m
    simp only [List.map_cons, List.cons_append, runDriverEvents, List.foldl_cons]
    simp [ih (append_stream_chunk m now sid s)]

theorem foldChunks_lookup (now : Nat) (sid : String) :
    ∀ (chunks : List String) (m : ConnectionManager) (conv : Conversation),
      dlookup sid m.conversations = some conv →
      ∃ la, dlookup sid
          ((chunks.foldl (fun mm s => append_stream_chunk mm now sid s) m)).conversations =
        some { conv with
               current_response := chunkFold conv.current_response chunks,
               last_activity := la } := by
  intro chunks
  induction chunks with
  | nil =>
    intro m conv h
    exact ⟨conv.last_activity, by simpa [chunkFold] using h⟩
  | cons s rest ih =>
    intro m conv h
    have h1 := append_stream_chunk_lookup now h s
    obtain ⟨la, hla⟩ := ih (append_stream_chunk m now sid s) _ h1
    refine ⟨la, ?_⟩
    simp only [List.foldl_cons]
    rw [hla]
    simp [chunkFold]

-- Correlator lemmas

theorem handle_tool_result_not_pending {pending : List (String × ToolSlot)}
    {rid : String} (r : ToolResult) (h : dlookup rid pending = none) :
    handle_tool_result pending rid r = pending := by
  simp [handle_tool_result, h]

theorem handle_tool_result_other (pending : List (String × ToolSlot))
    {rid k : String} (hne : k ≠ rid) (res : ToolResult) :
    dlookup rid (handle_tool_result pending k res) = dlookup rid pending := by
  unfold handle_tool_result
  cases h : dlookup k pending with
  | none => rfl
  | some slot => exact dlookup_dset_ne (Ne.symm hne) _ pending

theorem handle_tool_result_nodup {pending : List (String × ToolSlot)}
    (h : (dkeys pending).Nodup) (k : String) (res : ToolResult) :
    (dkeys (handle_tool_result pending k res)).Nodup := by
  unfold handle_tool_result
  cases hk : dlookup k pending with
  | none => exact h
  | some slot => exact nodup_dkeys_dset k _ h

theorem applyArrivals_other {rid : String} :
    ∀ (evs : List (String × ToolResult)) (pending : List (String × ToolSlot)),
      (∀ p ∈ evs, p.1 ≠ rid) →
      dlookup rid (applyArrivals evs pending) = dlookup rid pending := by
  intro evs
  induction evs with
  | nil => intro pending _; rfl
  | cons e rest ih =>
    intro pending hne
    have h1 : e.1 ≠ rid := hne e (by simp)
    have h2 : ∀ p ∈ rest, p.1 ≠ rid := fun p hp => hne p (by simp [hp])
    simp only [applyArrivals, List.foldl_cons]
    rw [show List.foldl (fun p e => handle_tool_result p e.1 e.2)
          (handle_tool_result pending e.1 e.2) rest =
        applyArrivals rest (handle_tool_result pending e.1 e.2) from rfl]
    rw [ih _ h2, handle_tool_result_other pending h1]

theorem applyArrivals_nodup :
    ∀ (evs : List (String × ToolResult)) (pending : List (String × ToolSlot)),
      (dkeys pending).Nodup → (dkeys (applyArrivals evs pending)).Nodup := by
  intro evs
  induction evs with
  | nil => intro pending h; exact h
  | cons e rest ih =>
    intro pending h
    simp only [applyArrivals, List.foldl_cons]
    exact ih (handle_tool_result pending e.1 e.2) (handle_tool_result_nodup h e.1 e.2)

/-- After the polling wait finishes, whichever way, the correlation id is no
longer pending. -/
theorem waitForToolResult_retire (arrivals : Nat → List (String × ToolResult))
    (rid : String) :
    ∀ (fuel : Nat) (pending : List (String × ToolSlot)), (dkeys pending).Nodup →
      dlookup rid (waitForToolResult arrivals rid fuel pending).2 = none := by
  intro fuel
  induction fuel with
  | zero =>
    intro pending h
    simp only [waitForToolResult]
    exact dlookup_ddel_self rid h
  | succ fuel' ih =>
    intro pending h
    simp only [waitForToolResult]
    cases hl : dlookup rid pending with
    | none => exact ih _ (applyArrivals_nodup _ _ h)
    | some slot =>
      by_cases hcomp : slot.completed
      · simp only [hcomp, if_true]
        exact dlookup_ddel_self rid h
      · simp only [hcomp, Bool.false_eq_true, if_false]
        exact ih _ (applyArrivals_nodup _ _ h)

/-- If no resolution for the id ever arrives, the wait ends in the timeout
result and the slot is gone. -/
theorem waitForToolResult_timeout (arrivals : Nat → List (String × ToolResult))
    (rid : String) (hne : ∀ n, ∀ p ∈ arrivals n, p.1 ≠ rid) :
    ∀ (fuel : Nat) (pending : List (String × ToolSlot)) (slot : ToolSlot),
      dlookup rid pending = some slot → slot.completed = false →
      (dkeys pending).Nodup →
      ∃ p', waitForToolResult arrivals rid fuel pending =
        (some (ToolResult.err "Tool execution timeout"), p') ∧ dlookup rid p' = none := by
  intro fuel
  induction fuel with
  | zero =>
    intro pending slot hl hcomp hnd
    exact ⟨ddel rid pending, by simp [waitForToolResult], dlookup_ddel_self rid hnd⟩
  | succ fuel' ih =>
    intro pending slot hl hcomp hnd
    have hl' : dlookup rid (applyArrivals (arrivals fuel') pending) = some slot := by
      rw [applyArrivals_other (arrivals fuel') pending (hne fuel')]
      exact hl
    obtain ⟨p', hp', hnone⟩ := ih (applyArrivals (arrivals fuel') pending) slot hl' hcomp
      (applyArrivals_nodup _ _ hnd)
    refine ⟨p', ?_, hnone⟩
    simp only [waitForToolResult, hl, hcomp, Bool.false_eq_true, if_false]
    exact hp'

-- Remaining support lemmas

theorem setConv_ext (m : ConnectionManager) (sid : String) (c : Conversation) :
    (setConv m sid c).extensions = m.extensions := rfl

theorem has_extension_setConv (m : ConnectionManager) (sid : String)
    (c : Conversation) : has_extension (setConv m sid c) = has_extension m := rfl

theorem serverLoop_no_exc (cfg : Config) (env : Env) (sid : String)
    {key : String} (hkey : cfg.GEMINI_API_KEY = some key) :
    ∀ (fuel callIdx : Nat) (m : ConnectionManager) (resp : GeminiResp),
      (∀ i, ∃ parts, env.gemini (callIdx + i) = .success parts) →
      (serverLoop cfg env sid fuel callIdx m resp).2.2 = none := by
  intro fuel
  induction fuel with
  | zero =>
    intro callIdx m resp hsucc
    obtain ⟨err, txt, tcs⟩ := resp
    cases tcs with
    | nil => rw [serverLoop_nil_eq]
    | cons c cs => rw [serverLoop_zero_eq]
  | succ fuel' ih =>
    intro callIdx m resp hsucc
    obtain ⟨err, txt, tcs⟩ := resp
    cases tcs with
    | nil => rw [serverLoop_nil_eq]
    | cons c cs =>
      obtain ⟨parts, hg⟩ := hsucc 0
      rw [Nat.add_zero] at hg
      rw [serverLoop_cons_eq]
      simp only [callGemini, hkey, hg]
      exact ih (callIdx + 1) _ _ (by
        intro i
        have := hsucc (i + 1)
        simpa [Nat.add_assoc, Nat.add_comm 1 i] using this)

theorem partsText_textOnly (chunks : List String) :
    partsText (chunks.map StreamPart.textPart) = strConcat chunks := by
  induction chunks with
  | nil => rfl
  | cons s rest ih => simp [partsText, strConcat, ih]

theorem partsCalls_textOnly (chunks : List String) :
    partsCalls (chunks.map StreamPart.textPart) = [] := by
  induction chunks with
  | nil => rfl
  | cons s rest ih => simp [partsCalls, ih]

theorem partsTexts_textOnly (chunks : List String) :
    partsTexts (chunks.map StreamPart.textPart) = chunks := by
  induction chunks with
  | nil => rfl
  | cons s rest ih => simp [partsTexts, ih]

/-- Repeated append_stream_chunk, as the relay handlers perform it. -/
def foldStreamChunks (m : ConnectionManager) (now : Nat) (sid : String)
    (chunks : List String) : ConnectionManager :=
  chunks.foldl (fun mm ch => append_stream_chunk mm now sid ch) m

-- ===========================================================================
-- Claim theorems
-- ===========================================================================

/-- C4: a send_message on a busy session is rejected immediately with an
error event and changes nothing: the manager comes back untouched and the
only emitted event is the error, so nothing is queued and the log, buffer,
progress and busy flag are all unchanged. -/
theorem C4_busy_send_rejected (cfg : Config) (env : Env)
    (m : ConnectionManager) (data : MessageData) (sid : String)
    (conv : Conversation)
    (hsid : truthySid data.session_id = some sid)
    (htext : pyStrip data.text ≠ "")
    (hconv : dlookup sid m.conversations = some conv)
    (hbusy : conv.processing = true) :
    handle_send_message cfg env m data =
      (m, [Event.errorEvt "Already processing a message"]) := by
  simp [handle_send_message, hsid, htext, get_conversation, hconv, hbusy]

theorem C4_busy_send_rejected_witness :
    handle_send_message { GEMINI_API_KEY := some "k", SERPER_API_KEY := none }
      { now := 1, gemini := fun _ => .failure "e", toolExec := fun _ => .err "e",
        serper := fun _ => .raised "e", driverEvents := [] }
      { web_clients := [], extensions := [],
        conversations := [("s1",
          { messages := [], processing := true, current_response := "",
            progress := none, last_activity := 0 })] }
      { session_id := some "s1", text := "hello" }
      = ({ web_clients := [], extensions := [],
           conversations := [("s1",
             { messages := [], processing := true, current_response := "",
               progress := none, last_activity := 0 })] },
         [Event.errorEvt "Already processing a message"]) :=
  C4_busy_send_rejected _ _ _ _ "s1" _ (by decide) (by decide) rfl rfl

/-- C10: a send_message whose text strips to empty or whose session id is
missing (or empty, which the source treats as falsy) is silently ignored:
the manager is unchanged, no session is created, and no event at all is
emitted. -/
theorem C10_blank_send_ignored (cfg : Config) (env : Env)
    (m : ConnectionManager) (data : MessageData)
    (h : truthySid data.session_id = none ∨ pyStrip data.text = "") :
    handle_send_message cfg env m data = (m, []) := by
  rcases h with h | h
  · simp [handle_send_message, h]
  · cases hs : truthySid data.session_id with
    | none => simp [handle_send_message, hs]
    | some sid => simp [handle_send_message, hs, h]

theorem C10_blank_send_ignored_witness :
    handle_send_message { GEMINI_API_KEY := some "k", SERPER_API_KEY := none }
      { now := 1, gemini := fun _ => .failure "e", toolExec := fun _ => .err "e",
        serper := fun _ => .raised "e", driverEvents := [] }
      { web_clients := [], extensions := [], conversations := [] }
      { session_id := some "s1", text := "   " }
      = ({ web_clients := [], extensions := [], conversations := [] }, []) :=
  C10_blank_send_ignored _ _ _ _ (Or.inr (by decide))

/-- C2 counterexample: a clear_conversation on a busy session is not
rejected.  The busy session s1 (one message, non-empty buffer, progress set)
is wiped to the empty conversation and the busy flag is dropped, so the
claimed "log, buffer, progress and busy left unchanged" is false. -/
theorem C2_counterexample :
    (handle_clear
      { web_clients := [], extensions := [],
        conversations := [("s1",
          { messages := [{ role := "user", content := "hi", parts := none, timestamp := 3 }],
            processing := true, current_response := "buf",
            progress := some { tool := "t", current := 1, total := 2, url := none },
            last_activity := 3 })] }
      9 { session_id := some "s1" }) =
    ({ web_clients := [], extensions := [],
       conversations := [("s1", emptyConversation 9)] },
     [Event.conversation_cleared]) ∧
    emptyConversation 9 ≠
      { messages := [{ role := "user", content := "hi", parts := none, timestamp := 3 }],
        processing := true, current_response := "buf",
        progress := some { tool := "t", current := 1, total := 2, url := none },
        last_activity := 3 } := by
  exact ⟨by decide, by decide⟩

/-- C2 amended: clear_conversation is never rejected.  For any session in the
store, busy or not, handle_clear atomically replaces it with the fresh empty
conversation (messages [], buffer empty, progress none, busy false) and
acknowledges with conversation_cleared. -/
theorem C2_amended_clear_always_resets (m : ConnectionManager) (now : Nat)
    (sid : String) (conv : Conversation)
    (hsid : sid ≠ "")
    (h : dlookup sid m.conversations = some conv) :
    handle_clear m now { session_id := some sid } =
      (setConv m sid (emptyConversation now), [Event.conversation_cleared]) := by
  simp [handle_clear, truthySid, hsid, clear_conversation, h]

theorem C2_amended_clear_always_resets_witness :
    handle_clear
      { web_clients := [], extensions := [],
        conversations := [("s1",
          { messages := [], processing := true, current_response := "x",
            progress := none, last_activity := 0 })] }
      7 { session_id := some "s1" }
      = (setConv
          { web_clients := [], extensions := [],
            conversations := [("s1",
              { messages := [], processing := true, current_response := "x",
                progress := none, last_activity := 0 })] }
          "s1" (emptyConversation 7), [Event.conversation_cleared]) :=
  C2_amended_clear_always_resets _ 7 "s1" _ (by decide) rfl

/-- C3 counterexample: when the only driver disconnects, its pending tool
correlation r1 is not resolved as failed: it stays in the pending table, not
completed and with no failure result, exactly as before the disconnect. -/
theorem C3_counterexample :
    (handle_disconnect
      { manager :=
          { web_clients := [],
            extensions := [("ext1", { tab_id := none, connected_at := 0 })],
            conversations := [] },
        pending_tool_requests :=
          [("r1", { session_id := "s1", result := none, completed := false })],
        pending_ai_requests := [] }
      "ext1") =
    { manager := { web_clients := [], extensions := [], conversations := [] },
      pending_tool_requests :=
        [("r1", { session_id := "s1", result := none, completed := false })],
      pending_ai_requests := [] } := by
  decide

/-- C3 amended: handle_disconnect only deregisters the connection: it removes
the socket id from the web-client and extension registries and touches
neither pending-correlation table nor the conversations, so pending requests
owned by the driver are left to expire via their own poll timeouts. -/
theorem C3_amended_disconnect_leaves_pending (st : ServerState) (sid : String) :
    (handle_disconnect st sid).pending_tool_requests = st.pending_tool_requests ∧
    (handle_disconnect st sid).pending_ai_requests = st.pending_ai_requests ∧
    (handle_disconnect st sid).manager.web_clients = ddel sid st.manager.web_clients ∧
    (handle_disconnect st sid).manager.extensions = ddel sid st.manager.extensions ∧
    (handle_disconnect st sid).manager.conversations = st.manager.conversations := by
  simp [handle_disconnect, remove_web_client, remove_extension]

/-- C6: correlation lifecycle.  (1) If no resolution for the id ever arrives,
execute_tool_via_extension retires the slot and returns the timeout error,
and the id is no longer pending afterwards.  (2) A tool_result for an id that
is not pending is a no-op.  (3) Whatever the schedule, once the wait returns
the id is retired, so together with (2) every later resolve for it changes
nothing: each correlation id is resolved at most once. -/
theorem C6_correlation_lifecycle :
    (∀ (arrivals : Nat → List (String × ToolResult)) (rid sid : String)
       (pending : List (String × ToolSlot)),
       (∀ n, ∀ p ∈ arrivals n, p.1 ≠ rid) →
       (dkeys pending).Nodup →
       ∃ p', execute_tool_via_extension true rid arrivals sid pending =
           (some (ToolResult.err "Tool execution timeout"), p') ∧
         dlookup rid p' = none) ∧
    (∀ (pending : List (String × ToolSlot)) (rid : String) (r : ToolResult),
       dlookup rid pending = none → handle_tool_result pending rid r = pending) ∧
    (∀ (arrivals : Nat → List (String × ToolResult)) (rid : String)
       (fuel : Nat) (pending : List (String × ToolSlot)),
       (dkeys pending).Nodup →
       dlookup rid (waitForToolResult arrivals rid fuel pending).2 = none) := by
  refine ⟨?_, ?_, ?_⟩
  · intro arrivals rid sid pending hne hnd
    have hset : dlookup rid
        (dset rid { session_id := sid, result := none, completed := false } pending) =
        some { session_id := sid, result := none, completed := false } :=
      dlookup_dset_self rid _ pending
    obtain ⟨p', hp', hnone⟩ := waitForToolResult_timeout arrivals rid hne 240
      (dset rid { session_id := sid, result := none, completed := false } pending)
      { session_id := sid, result := none, completed := false } hset rfl
      (nodup_dkeys_dset rid _ hnd)
    refine ⟨p', ?_, hnone⟩
    simpa [execute_tool_via_extension] using hp'
  · intro pending rid r h
    exact handle_tool_result_not_pending r h
  · intro arrivals rid fuel pending hnd
    exact waitForToolResult_retire arrivals rid fuel pending hnd

theorem C6_correlation_lifecycle_witness :
    ∃ p', execute_tool_via_extension true "r1" (fun _ => []) "s1" [] =
        (some (ToolResult.err "Tool execution timeout"), p') ∧
      dlookup "r1" p' = none :=
  C6_correlation_lifecycle.1 (fun _ => []) "r1" "s1" []
    (by intro n p hp; simp at hp) (by simp [dkeys])

/-- C8: the external-search tool.  Every query produced by the semicolon
split is non-empty (whitespace-only fragments are dropped); one upstream
fetch happens per query, in input order; the report is the fixed header
followed by one section per query in that order; and each section shows at
most 4 organic entries, a prefix of the upstream organic list. -/
theorem C8_serper_search (cfg : Config) (key : String)
    (upstream : String → SerperOutcome) (query : String)
    (hkey : cfg.SERPER_API_KEY = some key) :
    (∀ q ∈ splitQueries query, q ≠ "") ∧
    ((splitQueries query).map (serperFetch upstream)).length =
      (splitQueries query).length ∧
    (∀ (i : Nat) (hi : i < (splitQueries query).length),
      ((splitQueries query).map (serperFetch upstream)).get ⟨i, by simpa using hi⟩ =
        serperFetch upstream ((splitQueries query).get ⟨i, hi⟩)) ∧
    execute_serper_search cfg upstream query =
      .ok ("=== SERPER SEARCH RESULTS ===\n" ++
        strConcat (((splitQueries query).map (serperFetch upstream)).map sectionFor)) ∧
    (∀ orgs : List OrganicResult,
      (shownEntries orgs).length ≤ 4 ∧ shownEntries orgs <+: orgs) := by
  refine ⟨?_, ?_, ?_, ?_, ?_⟩
  · intro q hq
    simp only [splitQueries, List.mem_filter] at hq
    simpa using hq.2
  · simp
  · intro i hi
    simp [List.get_map]
  · simp only [execute_serper_search, hkey]
    rw [foldl_append_str sectionFor]
  · intro orgs
    exact ⟨by simpa [shownEntries] using List.length_take_le 4 orgs,
           List.take_prefix 4 orgs⟩

theorem C8_serper_search_witness :
    splitQueries "phone reviews; phone price" = ["phone reviews", "phone price"] ∧
    execute_serper_search { GEMINI_API_KEY := none, SERPER_API_KEY := some "k" }
      (fun _ => .response { organic := [{ title := some "T", link := some "U", snippet := some "S" }] })
      "phone reviews; phone price" =
    .ok ("=== SERPER SEARCH RESULTS ===\n" ++
      strConcat (((splitQueries "phone reviews; phone price").map
        (serperFetch (fun _ => .response
          { organic := [{ title := some "T", link := some "U", snippet := some "S" }] }))).map
        sectionFor)) :=
  ⟨by decide,
   (C8_serper_search { GEMINI_API_KEY := none, SERPER_API_KEY := some "k" } "k"
     (fun _ => .response { organic := [{ title := some "T", link := some "U", snippet := some "S" }] })
     "phone reviews; phone price" rfl).2.2.2.1⟩

/-- C9: append_stream_chunk treats the exact chunk __CLEAR__ as a reset
sentinel: appending it empties the buffer, appending anything else
concatenates it.  Consequently, over any chunk sequence starting from an
empty buffer, the buffer is the concatenation of the kept chunks, and the
literal __CLEAR__ is never among them, so a driver-supplied __CLEAR__ chunk
can never appear in the buffer. -/
theorem C9_clear_sentinel (m : ConnectionManager) (now : Nat) (sid : String)
    (conv : Conversation) (chunk : String) (chunks : List String)
    (h : dlookup sid m.conversations = some conv) :
    (dlookup sid (append_stream_chunk m now sid "__CLEAR__").conversations =
       some { conv with current_response := "", last_activity := now }) ∧
    (chunk ≠ "__CLEAR__" →
      dlookup sid (append_stream_chunk m now sid chunk).conversations =
        some { conv with
               current_response := conv.current_response ++ chunk,
               last_activity := now }) ∧
    (conv.current_response = "" →
      ∃ la, dlookup sid (foldStreamChunks m now sid chunks).conversations =
        some { conv with
               current_response := strConcat (keptChunks chunks),
               last_activity := la } ∧
        ∀ x ∈ keptChunks chunks, x ≠ "__CLEAR__") := by
  refine ⟨?_, ?_, ?_⟩
  · simpa using append_stream_chunk_lookup now h "__CLEAR__"
  · intro hc
    simpa [hc] using append_stream_chunk_lookup now h chunk
  · intro hb
    obtain ⟨la, hla⟩ := foldChunks_lookup now sid chunks m conv h
    have hcf : chunkFold conv.current_response chunks = strConcat (keptChunks chunks) := by
      rw [hb]
      exact chunkFold_keptChunks chunks
    refine ⟨la, ?_, keptChunks_no_clear chunks⟩
    rw [show foldStreamChunks m now sid chunks =
        chunks.foldl (fun mm ch => append_stream_chunk mm now sid ch) m from rfl]
    rw [hla, hcf]

theorem C9_clear_sentinel_witness :
    (dlookup "s1" (append_stream_chunk
      { web_clients := [], extensions := [],
        conversations := [("s1",
          { messages := [], processing := true, current_response := "ab",
            progress := none, last_activity := 0 })] }
      5 "s1" "__CLEAR__").conversations).map Conversation.current_response = some "" ∧
    (dlookup "s1" (append_stream_chunk
      { web_clients := [], extensions := [],
        conversations := [("s1",
          { messages := [], processing := true, current_response := "ab",
            progress := none, last_activity := 0 })] }
      5 "s1" "cd").conversations).map Conversation.current_response = some "abcd" := by
  obtain ⟨ha, hb, -⟩ := C9_clear_sentinel
    { web_clients := [], extensions := [],
      conversations := [("s1",
        { messages := [], processing := true, current_response := "ab",
          progress := none, last_activity := 0 })] }
    5 "s1"
    { messages := [], processing := true, current_response := "ab",
      progress := none, last_activity := 0 }
    "cd" [] rfl
  refine ⟨?_, ?_⟩
  · rw [ha]; rfl
  · rw [hb (by decide)]; rfl

/-- C7: busy-flag lifecycle.  A conversation is created with busy false, and
for any accepted send (any configuration, any oracle behaviour: success,
completion-API error, no-extension rejection, delegated error or timeout,
raised exception), the finally clause leaves the session present with busy
false, and stream_end is among the emitted events. -/
theorem C7_busy_lifecycle :
    (∀ now : Nat, (emptyConversation now).processing = false) ∧
    (∀ (cfg : Config) (env : Env) (m : ConnectionManager) (data : MessageData)
       (sid : String),
       truthySid data.session_id = some sid →
       pyStrip data.text ≠ "" →
       (∀ conv, dlookup sid m.conversations = some conv → conv.processing = false) →
       ∃ conv', dlookup sid ((handle_send_message cfg env m data).1).conversations
           = some conv' ∧ conv'.processing = false ∧
         Event.stream_end ∈ (handle_send_message cfg env m data).2) := by
  refine ⟨fun now => rfl, ?_⟩
  intro cfg env m data sid hsid htext hnb
  cases hgc : dlookup sid m.conversations with
  | some conv =>
    have hpf : conv.processing = false := hnb conv hgc
    simp only [handle_send_message, hsid, get_conversation, hgc]
    rw [if_neg htext]
    simp only [hpf, Bool.false_eq_true, if_false]
    repeat' split
    all_goals
      obtain ⟨c', hc', hcp⟩ := clearProcessing_lookup_any _ env.now sid
    all_goals
      exact ⟨c', by simpa using hc', hcp, by simp⟩
  | none =>
    simp only [handle_send_message, hsid, get_conversation, hgc]
    rw [if_neg htext]
    simp only [emptyConversation, Bool.false_eq_true, if_false]
    repeat' split
    all_goals
      obtain ⟨c', hc', hcp⟩ := clearProcessing_lookup_any _ env.now sid
    all_goals
      exact ⟨c', by simpa using hc', hcp, by simp⟩

theorem C7_busy_lifecycle_witness :
    ∃ conv', dlookup "s1" ((handle_send_message
        { GEMINI_API_KEY := some "k", SERPER_API_KEY := none }
        { now := 2, gemini := fun _ => .failure "boom", toolExec := fun _ => .err "e",
          serper := fun _ => .raised "e", driverEvents := [] }
        { web_clients := [], extensions := [], conversations := [] }
        { session_id := some "s1", text := "find a laptop" }).1).conversations
        = some conv' ∧ conv'.processing = false ∧
      Event.stream_end ∈ (handle_send_message
        { GEMINI_API_KEY := some "k", SERPER_API_KEY := none }
        { now := 2, gemini := fun _ => .failure "boom", toolExec := fun _ => .err "e",
          serper := fun _ => .raised "e", driverEvents := [] }
        { web_clients := [], extensions := [], conversations := [] }
        { session_id := some "s1", text := "find a laptop" }).2 :=
  C7_busy_lifecycle.2
    { GEMINI_API_KEY := some "k", SERPER_API_KEY := none }
    { now := 2, gemini := fun _ => .failure "boom", toolExec := fun _ => .err "e",
      serper := fun _ => .raised "e", driverEvents := [] }
    { web_clients := [], extensions := [], conversations := [] }
    { session_id := some "s1", text := "find a laptop" } "s1"
    (by decide) (by decide) (fun conv h => by simp [dlookup] at h)

/-- C5: server-driven tool loop.  (1) The messages an accepted server-driven
turn appends are the user message followed exactly by the spec-side trace
loopMsgs, which per round appends one functionCall message and one
functionResponse message built from the head proposal of that round's
response.  (2) The trace holds at most 5 functionCall messages, and
functionCall and functionResponse messages in equal number.  (3) The loop
ignores every proposal after the first in a response: the run is identical
whether a response proposes c :: rest or just [c].  (4) When every completion
response succeeds and proposes at least one tool call, the loop runs exactly
5 rounds and the turn ends with no error event. -/
theorem C5_tool_loop (cfg : Config) (env : Env) (m : ConnectionManager)
    (data : MessageData) (sid key : String) (conv : Conversation)
    (parts0 : List StreamPart)
    (hkey : cfg.GEMINI_API_KEY = some key)
    (hsid : truthySid data.session_id = some sid)
    (htext : pyStrip data.text ≠ "")
    (hconv : dlookup sid m.conversations = some conv)
    (hnb : conv.processing = false)
    (hg0 : env.gemini 0 = .success parts0) :
    (∃ conv', dlookup sid ((handle_send_message cfg env m data).1).conversations
        = some conv' ∧
      conv'.messages = conv.messages ++
        ({ role := "user", content := pyStrip data.text, parts := none,
           timestamp := env.now } ::
         loopMsgs cfg env (has_extension m) 5 1
           { error := none, text := partsText parts0, toolCalls := partsCalls parts0 })) ∧
    (∀ (fuel callIdx : Nat) (resp : GeminiResp),
       (loopMsgs cfg env (has_extension m) fuel callIdx resp).countP
           (fun x => isFunctionCallMsg x) ≤ fuel ∧
       (loopMsgs cfg env (has_extension m) fuel callIdx resp).countP
           (fun x => isFunctionCallMsg x) =
         (loopMsgs cfg env (has_extension m) fuel callIdx resp).countP
           (fun x => isFunctionResponseMsg x)) ∧
    (∀ (fuel callIdx : Nat) (m' : ConnectionManager) (err : Option String)
       (txt : String) (c : ToolCall) (rest : List ToolCall),
       serverLoop cfg env sid fuel callIdx m'
           { error := err, text := txt, toolCalls := c :: rest } =
         serverLoop cfg env sid fuel callIdx m'
           { error := err, text := txt, toolCalls := [c] }) ∧
    ((∀ i, successWithTool (env.gemini i)) →
       (loopMsgs cfg env (has_extension m) 5 1
          { error := none, text := partsText parts0,
            toolCalls := partsCalls parts0 }).countP
          (fun x => isFunctionCallMsg x) = 5 ∧
       errorFree (handle_send_message cfg env m data).2) := by
  have hconvT := lookup_setConv_self m sid { conv with processing := true }
  have hU := add_message_lookup env.now hconvT "user" (pyStrip data.text) none
  have hptc := processParts_text_calls env.now sid parts0
    (add_message (setConv m sid { conv with processing := true }) env.now sid "user"
      (pyStrip data.text) none)
  obtain ⟨la, hla⟩ := processParts_lookup env.now sid parts0 _ _ hU
  have hxt : has_extension (processParts
      (add_message (setConv m sid { conv with processing := true }) env.now sid "user"
        (pyStrip data.text) none) env.now sid parts0).1 = has_extension m := by
    simp [has_extension, processParts_ext, add_message_ext, setConv]
  obtain ⟨convL, hcl, hclm, hclp⟩ := serverLoop_char cfg env sid 5 1 _
    { error := none, text := partsText parts0, toolCalls := partsCalls parts0 } _ hla
  have hfin := clearProcessing_lookup env.now hcl
  refine ⟨?_, ?_, ?_, ?_⟩
  · refine ⟨{ convL with processing := false }, ?_, ?_⟩
    · simp only [handle_send_message, hsid, get_conversation, hconv]
      simp only [if_neg htext]
      simp [hnb, hkey, callGemini, hg0, hptc]
      split
      all_goals simpa using hfin
    · show convL.messages = _
      rw [hclm, hxt]
      simp
  · exact loopMsgs_count cfg env (has_extension m)
  · intro fuel callIdx m' err txt c rest
    cases fuel with
    | zero =>
      rw [serverLoop_zero_eq, serverLoop_zero_eq]
      simp [afterLoop]
    | succ fuel' =>
      rw [serverLoop_cons_eq, serverLoop_cons_eq]
  · intro hall
    have hcalls0 : partsCalls parts0 ≠ [] := by
      obtain ⟨parts', hp', hpc'⟩ := hall 0
      rw [hg0] at hp'
      have : parts0 = parts' := by
        cases hp'
        rfl
      rw [this]
      exact hpc'
    constructor
    · refine loopMsgs_count_full cfg env (has_extension m) hkey 5 1
        { error := none, text := partsText parts0, toolCalls := partsCalls parts0 }
        (by simpa using hcalls0) ?_
      intro i _
      exact hall (1 + i)
    · have hunb : ∀ i, ∃ parts, env.gemini (1 + i) = GeminiOutcome.success parts := by
        intro i
        obtain ⟨parts', hp', _⟩ := hall (1 + i)
        exact ⟨parts', hp'⟩
      have hnoexc := serverLoop_no_exc cfg env sid hkey 5 1
        (processParts
          (add_message (setConv m sid { conv with processing := true }) env.now sid "user"
            (pyStrip data.text) none) env.now sid parts0).1
        { error := none, text := partsText parts0, toolCalls := partsCalls parts0 } hunb
      simp only [handle_send_message, hsid, get_conversation, hconv]
      simp only [if_neg htext]
      simp [hnb, hkey, callGemini, hg0, hptc, hnoexc]
      refine errorFree_cons (by intro e h; cases h) ?_
      refine errorFree_cons (by intro e h; cases h) ?_
      refine errorFree_append (processParts_no_error env.now sid parts0 _) ?_
      refine errorFree_append (serverLoop_no_error cfg env sid hkey 5 1 _ _ hunb) ?_
      intro e h
      simp at h

/-- C1 counterexample: a server-driven turn that runs one tool round and
finishes streaming "done" ends (stream busy cleared, turn over) with the
stream buffer still holding "done" and the progress snapshot still set:
neither is reset before the turn ends, refuting the claimed buffer/progress
reset on every exit path. -/
theorem C1_counterexample :
    ((dlookup "s1" ((handle_send_message
        { GEMINI_API_KEY := some "k", SERPER_API_KEY := none }
        { now := 7,
          gemini := fun i =>
            if i = 0 then .success [.callPart { name := "x", args := [] }]
            else .success [.textPart "done"],
          toolExec := fun _ => .err "e", serper := fun _ => .raised "e",
          driverEvents := [] }
        { web_clients := [], extensions := [], conversations := [] }
        { session_id := some "s1", text := "hi" }).1).conversations).map
        Conversation.current_response = some "done") ∧
    ((dlookup "s1" ((handle_send_message
        { GEMINI_API_KEY := some "k", SERPER_API_KEY := none }
        { now := 7,
          gemini := fun i =>
            if i = 0 then .success [.callPart { name := "x", args := [] }]
            else .success [.textPart "done"],
          toolExec := fun _ => .err "e", serper := fun _ => .raised "e",
          driverEvents := [] }
        { web_clients := [], extensions := [], conversations := [] }
        { session_id := some "s1", text := "hi" }).1).conversations).map
        Conversation.progress =
      some (some { tool := "x", current := 0, total := 0, url := none })) ∧
    ((handle_send_message
        { GEMINI_API_KEY := some "k", SERPER_API_KEY := none }
        { now := 7,
          gemini := fun i =>
            if i = 0 then .success [.callPart { name := "x", args := [] }]
            else .success [.textPart "done"],
          toolExec := fun _ => .err "e", serper := fun _ => .raised "e",
          driverEvents := [] }
        { web_clients := [], extensions := [], conversations := [] }
        { session_id := some "s1", text := "hi" }).2).getLast? =
      some Event.stream_end := by
  exact ⟨by decide, by decide, by decide⟩

/-- C1 amended: the finalize step (move the buffer into an assistant message,
reset buffer and progress) runs only on the delegated success path.
Part 1: a server-driven success turn appends the final text directly and
clears only busy: the buffer ends holding its previous content plus all
streamed chunks and the progress snapshot is untouched.  Part 2: a delegated
turn that completes via ai_response_complete does go through
finalize_response: the streamed chunks become the assistant message, and
buffer/progress end reset. -/
theorem C1_amended_finalize_only_delegated :
    (∀ (cfg : Config) (env : Env) (m : ConnectionManager) (data : MessageData)
       (sid key : String) (conv : Conversation) (chunks : List String),
       cfg.GEMINI_API_KEY = some key →
       truthySid data.session_id = some sid →
       pyStrip data.text ≠ "" →
       dlookup sid m.conversations = some conv →
       conv.processing = false →
       env.gemini 0 = .success (chunks.map StreamPart.textPart) →
       "__CLEAR__" ∉ chunks →
       strConcat chunks ≠ "" →
       dlookup sid ((handle_send_message cfg env m data).1).conversations =
         some { messages := conv.messages ++
                  [{ role := "user", content := pyStrip data.text, parts := none,
                     timestamp := env.now },
                   { role := "assistant", content := strConcat chunks, parts := none,
                     timestamp := env.now }],
                processing := false,
                current_response := conv.current_response ++ strConcat chunks,
                progress := conv.progress,
                last_activity := env.now }) ∧
    (∀ (cfg : Config) (env : Env) (m : ConnectionManager) (data : MessageData)
       (sid : String) (conv : Conversation) (chunks : List String),
       cfg.GEMINI_API_KEY = none →
       truthySid data.session_id = some sid →
       pyStrip data.text ≠ "" →
       dlookup sid m.conversations = some conv →
       conv.processing = false →
       conv.current_response = "" →
       has_extension m = true →
       env.driverEvents = chunks.map DriverEvent.chunk ++ [DriverEvent.aiComplete] →
       "__CLEAR__" ∉ chunks →
       strConcat chunks ≠ "" →
       dlookup sid ((handle_send_message cfg env m data).1).conversations =
         some { messages := conv.messages ++
                  [{ role := "user", content := pyStrip data.text, parts := none,
                     timestamp := env.now },
                   { role := "assistant", content := strConcat chunks, parts := none,
                     timestamp := env.now }],
                processing := false,
                current_response := "",
                progress := none,
                last_activity := env.now }) := by
  constructor
  · intro cfg env m data sid key conv chunks hkey hsid htext hconv hnb hg0 hnc hne
    have hconvT := lookup_setConv_self m sid { conv with processing := true }
    have hU := add_message_lookup env.now hconvT "user" (pyStrip data.text) none
    have hptc := processParts_text_calls env.now sid (chunks.map StreamPart.textPart)
      (add_message (setConv m sid { conv with processing := true }) env.now sid "user"
        (pyStrip data.text) none)
    obtain ⟨la, hla⟩ := processParts_lookup env.now sid (chunks.map StreamPart.textPart)
      _ _ hU
    rw [partsTexts_textOnly] at hla
    dsimp only at hla
    rw [chunkFold_no_clear hnc] at hla
    have hA := add_message_lookup env.now hla "assistant" (strConcat chunks) none
    have hfin := clearProcessing_lookup env.now hA
    simp only [handle_send_message, hsid, get_conversation, hconv]
    simp only [if_neg htext]
    simp [hnb, hkey, callGemini, hg0, hptc, partsCalls_textOnly, partsText_textOnly,
      serverLoop_nil_eq, afterLoop, hne]
    rw [hfin]
    simp
  · intro cfg env m data sid conv chunks hkey hsid htext hconv hnb hempty hx hdrv hnc hne
    have hconvT := lookup_setConv_self m sid { conv with processing := true }
    have hU := add_message_lookup env.now hconvT "user" (pyStrip data.text) none
    have hx3 : has_extension
        (add_message (setConv m sid { conv with processing := true }) env.now sid "user"
          (pyStrip data.text) none) = true := by
      rw [has_extension_add_message, has_extension_setConv]
      exact hx
    obtain ⟨la, hla⟩ := foldChunks_lookup env.now sid chunks _ _ hU
    dsimp only at hla
    have hbuf : chunkFold conv.current_response chunks = strConcat chunks := by
      rw [hempty, chunkFold_no_clear hnc]
      simp
    rw [hbuf] at hla
    have hF := finalize_response_lookup env.now hla
    rw [if_pos (by simpa using hne)] at hF
    dsimp only at hF
    have hfin := clearProcessing_lookup env.now hF
    simp only [handle_send_message, hsid, get_conversation, hconv]
    simp only [if_neg htext]
    simp [hnb, hkey, hx3, route_message_via_extension, hdrv, runDriverEvents_chunks]
    rw [hfin]
    simp

theorem C5_tool_loop_witness :
    ∃ conv', dlookup "s1" ((handle_send_message
        { GEMINI_API_KEY := some "k", SERPER_API_KEY := none }
        { now := 3,
          gemini := fun i =>
            if i = 0 then .success [.callPart { name := "x", args := [] }]
            else .success [.textPart "done"],
          toolExec := fun _ => .err "e", serper := fun _ => .raised "e",
          driverEvents := [] }
        { web_clients := [], extensions := [],
          conversations := [("s1", emptyConversation 0)] }
        { session_id := some "s1", text := "hi" }).1).conversations = some conv' ∧
      conv'.messages = (emptyConversation 0).messages ++
        ({ role := "user", content := pyStrip "hi", parts := none, timestamp := 3 } ::
         loopMsgs { GEMINI_API_KEY := some "k", SERPER_API_KEY := none }
           { now := 3,
             gemini := fun i =>
               if i = 0 then .success [.callPart { name := "x", args := [] }]
               else .success [.textPart "done"],
             toolExec := fun _ => .err "e", serper := fun _ => .raised "e",
             driverEvents := [] }
           (has_extension
             { web_clients := [], extensions := [],
               conversations := [("s1", emptyConversation 0)] }) 5 1
           { error := none,
             text := partsText [.callPart { name := "x", args := [] }],
             toolCalls := partsCalls [.callPart { name := "x", args := [] }] }) :=
  (C5_tool_loop
    { GEMINI_API_KEY := some "k", SERPER_API_KEY := none }
    { now := 3,
      gemini := fun i =>
        if i = 0 then .success [.callPart { name := "x", args := [] }]
        else .success [.textPart "done"],
      toolExec := fun _ => .err "e", serper := fun _ => .raised "e",
      driverEvents := [] }
    { web_clients := [], extensions := [],
      conversations := [("s1", emptyConversation 0)] }
    { session_id := some "s1", text := "hi" }
    "s1" "k" (emptyConversation 0) [.callPart { name := "x", args := [] }]
    rfl (by decide) (by decide) rfl rfl rfl).1

theorem C1_amended_finalize_only_delegated_witness :
    (dlookup "s1" ((handle_send_message
        { GEMINI_API_KEY := some "k", SERPER_API_KEY := none }
        { now := 4, gemini := fun _ => .success [.textPart "he", .textPart "llo"],
          toolExec := fun _ => .err "e", serper := fun _ => .raised "e",
          driverEvents := [] }
        { web_clients := [], extensions := [],
          conversations := [("s1",
            { messages := [], processing := false, current_response := "seed",
              progress := some { tool := "t", current := 1, total := 2, url := none },
              last_activity := 0 })] }
        { session_id := some "s1", text := "hi" }).1).conversations =
      some { messages := [] ++
               [{ role := "user", content := pyStrip "hi", parts := none,
                  timestamp := 4 },
                { role := "assistant", content := strConcat ["he", "llo"], parts := none,
                  timestamp := 4 }],
             processing := false,
             current_response := "seed" ++ strConcat ["he", "llo"],
             progress := some { tool := "t", current := 1, total := 2, url := none },
             last_activity := 4 }) ∧
    (dlookup "s1" ((handle_send_message
        { GEMINI_API_KEY := none, SERPER_API_KEY := none }
        { now := 4, gemini := fun _ => .failure "unused",
          toolExec := fun _ => .err "e", serper := fun _ => .raised "e",
          driverEvents := [.chunk "he", .chunk "llo", .aiComplete] }
        { web_clients := [],
          extensions := [("e1", { tab_id := none, connected_at := 0 })],
          conversations := [("s1", emptyConversation 0)] }
        { session_id := some "s1", text := "hi" }).1).conversations =
      some { messages := (emptyConversation 0).messages ++
               [{ role := "user", content := pyStrip "hi", parts := none,
                  timestamp := 4 },
                { role := "assistant", content := strConcat ["he", "llo"], parts := none,
                  timestamp := 4 }],
             processing := false,
             current_response := "",
             progress := none,
             last_activity := 4 }) :=
  ⟨C1_amended_finalize_only_delegated.1
     { GEMINI_API_KEY := some "k", SERPER_API_KEY := none }
     { now := 4, gemini := fun _ => .success [.textPart "he", .textPart "llo"],
       toolExec := fun _ => .err "e", serper := fun _ => .raised "e",
       driverEvents := [] }
     { web_clients := [], extensions := [],
       conversations := [("s1",
         { messages := [], processing := false, current_response := "seed",
           progress := some { tool := "t", current := 1, total := 2, url := none },
           last_activity := 0 })] }
     { session_id := some "s1", text := "hi" } "s1" "k" _ ["he", "llo"]
     rfl (by decide) (by decide) rfl rfl rfl (by decide) (by decide),
   C1_amended_finalize_only_delegated.2
     { GEMINI_API_KEY := none, SERPER_API_KEY := none }
     { now := 4, gemini := fun _ => .failure "unused",
       toolExec := fun _ => .err "e", serper := fun _ => .raised "e",
       driverEvents := [.chunk "he", .chunk "llo", .aiComplete] }
     { web_clients := [],
       extensions := [("e1", { tab_id := none, connected_at := 0 })],
       conversations := [("s1", emptyConversation 0)] }
     { session_id := some "s1", text := "hi" } "s1" _ ["he", "llo"]
     rfl (by decide) (by decide) rfl rfl rfl rfl rfl (by decide) (by decide)⟩
